import Mathlib

/- Formal model of the program-assistant core: the TF-IDF retrieval engine
(src/knowledge/rag.py), the data-loader facade (src/knowledge/data_loader.py)
and the recommendation engine (src/recommendations/recommendations.py).
Python floats are modelled as real numbers, Python dicts as association lists
(iterated in insertion order), and Python exceptions as Except values or
explicit failure flags.  String operations are modelled over the character
alphabet the repository actually uses: ASCII plus the Cyrillic block. -/

/- ---------------------------------------------------------------------------
String utilities shared by all three modules.
--------------------------------------------------------------------------- -/

/-- Python whitespace (the \s class restricted to its ASCII members). -/
def isPySpace (c : Char) : Bool :=
  c = ' ' || c = '\t' || c = '\n' || c = '\r' || c.toNat = 11 || c.toNat = 12

/-- Cyrillic letters (А..я plus Ё/ё), the non-ASCII alphabet used by the repo. -/
def isCyrillic (c : Char) : Bool :=
  (0x410 ≤ c.toNat && c.toNat ≤ 0x44F) || c.toNat = 0x401 || c.toNat = 0x451

/-- Python \w (word character) restricted to the alphabet used by the repo. -/
def isWordChar (c : Char) : Bool :=
  c.isAlphanum || c = '_' || isCyrillic c

/-- Python str.lower for one character, over ASCII and the Cyrillic block. -/
def pyLowerChar (c : Char) : Char :=
  if 'A' ≤ c ∧ c ≤ 'Z' then Char.ofNat (c.toNat + 32)
  else if 0x410 ≤ c.toNat ∧ c.toNat ≤ 0x42F then Char.ofNat (c.toNat + 0x20)
  else if c.toNat = 0x401 then Char.ofNat 0x451
  else c

/-- Python str.lower. -/
def pyLower (s : String) : String := String.mk (s.toList.map pyLowerChar)

/-- Python str.strip(): drop leading and trailing whitespace. -/
def pyStrip (s : String) : String :=
  String.mk (((s.toList.dropWhile isPySpace).reverse.dropWhile isPySpace).reverse)

/-- Python substring containment: needle occurs contiguously in hay
(the `needle in hay` operator on str). -/
def strInL (needle : List Char) : List Char → Bool
  | [] => needle.isEmpty
  | c :: rest => needle.isPrefixOf (c :: rest) || strInL needle rest

/-- Python `needle in hay` on strings. -/
def strIn (needle hay : String) : Bool := strInL needle.toList hay.toList

/-- Python str.isdigit (restricted to ASCII digits, all the repo feeds it). -/
def pyIsDigit (s : String) : Bool := s ≠ "" && s.toList.all Char.isDigit

/-- Python content[:500] (take the first 500 characters). -/
def strTake (s : String) (n : ℕ) : String := String.mk (s.toList.take n)

/- ---------------------------------------------------------------------------
Tokenizer: LightweightFAISSRAG._tokenize (rag.py lines 119-127).
--------------------------------------------------------------------------- -/

/-- re.sub of the pattern that keeps word characters and whitespace and
replaces every other character by a space (rag.py line 123). -/
def stripPunct (s : String) : String :=
  String.mk (s.toList.map (fun c => if isWordChar c || isPySpace c then c else ' '))

/-- Python text.split() with no separator: whitespace-delimited words,
empty segments discarded. -/
def pySplit (s : String) : List String :=
  ((s.toList.splitOnP isPySpace).map String.mk).filter (fun w => w ≠ "")

/-- The stop-word set of rag.py line 126. -/
def stopWords : List String :=
  ["и", "в", "на", "с", "по", "для", "от", "до", "из", "к", "о", "об",
   "что", "как", "это", "тот", "этот"]

/-- LightweightFAISSRAG._tokenize: lowercase, strip punctuation, split on
whitespace, keep tokens longer than 2 characters that are not stop words. -/
def tokenize (text : String) : List String :=
  (pySplit (stripPunct (pyLower text))).filter
    (fun t => decide (2 < t.length) && !(stopWords.contains t))

/- ---------------------------------------------------------------------------
TF-IDF vector construction: _build_tfidf_vectors (rag.py lines 129-177).
--------------------------------------------------------------------------- -/

/-- Lexicographic comparison of character lists by code point, the order
Python's sorted() uses on strings. -/
def charListLe : List Char → List Char → Bool
  | [], _ => true
  | _ :: _, [] => false
  | a :: as, b :: bs =>
      if a.val < b.val then true
      else if b.val < a.val then false
      else charListLe as bs

/-- Python string comparison (code-point lexicographic). -/
def strLe (a b : String) : Bool := charListLe a.toList b.toList

/-- The vocabulary: all distinct tokens of all documents in sorted order;
token i of the list owns vector dimension i (rag.py line 139). -/
def vocabOf (docs : List (List String)) : List String :=
  List.insertionSort (fun a b : String => strLe a b = true) docs.flatten.dedup

/-- Document frequency of a token: the number of documents containing it
(rag.py lines 143-148). -/
def docFreq (docs : List (List String)) (t : String) : ℕ :=
  docs.countP (fun d => d.contains t)

/-- doc_freq.get(token, 1) of rag.py line 152 (the default never fires for
vocabulary tokens, which occur in at least one document). -/
def dfOr1 (docs : List (List String)) (t : String) : ℕ :=
  if docFreq docs t = 0 then 1 else docFreq docs t

/-- IDF weight: math.log(N / df) (rag.py line 153). -/
noncomputable def idfFun (docs : List (List String)) (t : String) : ℝ :=
  Real.log ((docs.length : ℝ) / (dfOr1 docs t : ℝ))

/-- The idf_weights dict: one entry per vocabulary token (rag.py lines 150-153). -/
noncomputable def idfPairs (docs : List (List String)) : List (String × ℝ) :=
  (vocabOf docs).map (fun t => (t, idfFun docs t))

/-- The raw (unnormalized) TF-IDF vector of one document over the vocabulary
dimensions (rag.py lines 158-167).  The source writes tf*idf into a zero
vector at the dimension of each present token; since the vocabulary entries
are distinct this equals the map below (absent tokens give count 0 and hence
entry (0/len)*idf = 0). -/
noncomputable def tfidfRaw (docs : List (List String)) (tokens : List String) : List ℝ :=
  if tokens.length = 0 then (vocabOf docs).map (fun _ => 0)
  else (vocabOf docs).map
    (fun t => ((tokens.count t : ℝ) / (tokens.length : ℝ)) * idfFun docs t)

/-- np.linalg.norm: the L2 norm of a vector (rag.py line 170). -/
noncomputable def l2norm (v : List ℝ) : ℝ :=
  Real.sqrt ((v.map (fun x => x ^ 2)).sum)

/-- Normalize the vector when its norm is positive, otherwise leave it
unchanged (rag.py lines 170-172). -/
noncomputable def normalizeIf (v : List ℝ) : List ℝ :=
  if 0 < l2norm v then v.map (fun x => x / l2norm v) else v

/-- The embeddings matrix produced by _build_tfidf_vectors: one normalized
TF-IDF row per chunk. -/
noncomputable def buildVectors (chunks : List String) : List (List ℝ) :=
  (chunks.map tokenize).map (fun d => normalizeIf (tfidfRaw (chunks.map tokenize) d))

/-- Inner product of two vectors (np.dot row step, rag.py line 233). -/
noncomputable def dot (a b : List ℝ) : ℝ :=
  ((a.zip b).map (fun p => p.1 * p.2)).sum

/- ---------------------------------------------------------------------------
Engine state: the mutable fields of LightweightFAISSRAG (rag.py lines 17-31).
--------------------------------------------------------------------------- -/

/-- The metadata record attached to one chunk by _create_chunks
(rag.py lines 79-115).  The Python 'section' and 'type' keys are the
sectionName and kindTag fields here. -/
structure ChunkMeta where
  programName : String
  programId : String
  sectionName : String
  question : Option String
  kindTag : String
  deriving DecidableEq, Inhabited

/-- The mutable state of a LightweightFAISSRAG instance.  embeddings is None
until _build_tfidf_vectors first runs; index is None unless a FAISS index was
built (we model the FAISS IndexFlatIP as the list of vectors added to it). -/
structure EngineState where
  chunks : List String
  metadata : List ChunkMeta
  vocabulary : List String
  idfWeights : List (String × ℝ)
  embeddings : Option (List (List ℝ))
  index : Option (List (List ℝ))
  faissAvailable : Bool

/-- A freshly constructed engine (rag.py lines 17-23). -/
def initState (faiss : Bool) : EngineState :=
  { chunks := [], metadata := [], vocabulary := [], idfWeights := [],
    embeddings := none, index := none, faissAvailable := faiss }

/-- The engine state after _build_tfidf_vectors (and _build_faiss_index when
FAISS is available) has run over the given chunks and parallel metadata. -/
noncomputable def buildState (chunks : List String) (md : List ChunkMeta)
    (faiss : Bool) : EngineState :=
  { chunks := chunks, metadata := md,
    vocabulary := vocabOf (chunks.map tokenize),
    idfWeights := idfPairs (chunks.map tokenize),
    embeddings := some (buildVectors chunks),
    index := if faiss then some (buildVectors chunks) else none,
    faissAvailable := faiss }

/- ---------------------------------------------------------------------------
Search: LightweightFAISSRAG.search (rag.py lines 199-253).
--------------------------------------------------------------------------- -/

/-- The query vector (rag.py lines 210-219): one dimension per vocabulary
token; a present token contributes tf * idf_weights.get(token, 1.0).  The
source writes into a zero vector at the dimension of each query token that is
in the vocabulary; since the vocabulary is distinct this equals the map below
(tokens absent from the query give count 0 and entry 0). -/
noncomputable def queryVec (vocab : List String) (idfW : List (String × ℝ))
    (qts : List String) : List ℝ :=
  if qts.length = 0 then vocab.map (fun _ => 0)
  else vocab.map
    (fun t => ((qts.count t : ℝ) / (qts.length : ℝ)) * ((idfW.lookup t).getD 1))

/-- The comparison np.argsort uses on index pairs, made total by breaking
value ties by index.  np.argsort sorts ascending; it is stable (ties keep
ascending index order) for the array sizes this repository ever sorts, where
numpy uses an insertion sort. -/
def keyLtAsc (v : List ℝ) (i j : ℕ) : Prop :=
  v.getD i 0 < v.getD j 0 ∨ (v.getD i 0 = v.getD j 0 ∧ i ≤ j)

/-- Descending comparison with ties broken by ascending index; used to model
the accelerated backend's result order (spec section 4.3: ties broken by
original chunk insertion order). -/
def keyLtDesc (v : List ℝ) (i j : ℕ) : Prop :=
  v.getD j 0 < v.getD i 0 ∨ (v.getD i 0 = v.getD j 0 ∧ i ≤ j)

noncomputable instance (v : List ℝ) : DecidableRel (keyLtAsc v) := fun i j => by
  unfold keyLtAsc; infer_instance

noncomputable instance (v : List ℝ) : DecidableRel (keyLtDesc v) := fun i j => by
  unfold keyLtDesc; infer_instance

instance (v : List ℝ) : IsTrans ℕ (keyLtAsc v) := by
  constructor
  intro a b c hab hbc
  rcases hab with h1 | ⟨h1, h1'⟩ <;> rcases hbc with h2 | ⟨h2, h2'⟩
  · exact Or.inl (h1.trans h2)
  · exact Or.inl (h2 ▸ h1)
  · exact Or.inl (h1 ▸ h2)
  · exact Or.inr ⟨h1.trans h2, h1'.trans h2'⟩

instance (v : List ℝ) : IsTotal ℕ (keyLtAsc v) := by
  constructor
  intro a b
  rcases lt_trichotomy (v.getD a 0) (v.getD b 0) with h | h | h
  · exact Or.inl (Or.inl h)
  · rcases Nat.le_total a b with h' | h'
    · exact Or.inl (Or.inr ⟨h, h'⟩)
    · exact Or.inr (Or.inr ⟨h.symm, h'⟩)
  · exact Or.inr (Or.inl h)

instance (v : List ℝ) : IsTrans ℕ (keyLtDesc v) := by
  constructor
  intro a b c hab hbc
  rcases hab with h1 | ⟨h1, h1'⟩ <;> rcases hbc with h2 | ⟨h2, h2'⟩
  · exact Or.inl (h2.trans h1)
  · exact Or.inl (h2 ▸ h1)
  · exact Or.inl (h1 ▸ h2)
  · exact Or.inr ⟨h1.trans h2, h1'.trans h2'⟩

instance (v : List ℝ) : IsTotal ℕ (keyLtDesc v) := by
  constructor
  intro a b
  rcases lt_trichotomy (v.getD a 0) (v.getD b 0) with h | h | h
  · exact Or.inr (Or.inl h)
  · rcases Nat.le_total a b with h' | h'
    · exact Or.inl (Or.inr ⟨h, h'⟩)
    · exact Or.inr (Or.inr ⟨h.symm, h'⟩)
  · exact Or.inl (Or.inl h)

/-- np.argsort(similarities): the indices 0..n-1 sorted by ascending
similarity (stable). -/
noncomputable def argsortAsc (v : List ℝ) : List ℕ :=
  List.insertionSort (keyLtAsc v) (List.range v.length)

/-- np.argsort(similarities)[::-1][:top_k] (rag.py line 234). -/
noncomputable def npTopK (v : List ℝ) (k : ℕ) : List ℕ :=
  (argsortAsc v).reverse.take k

/-- Modelled from the spec: the accelerated backend (FAISS IndexFlatIP) is an
exact inner-product top-k structure, absent from src/.  Given the inner
products of every stored vector with the query it returns up to k hits sorted
by descending score, ties broken by insertion order (spec section 4.3 query
protocol step 5); when fewer than k vectors are stored the remaining slots
are padded with id -1, which the source's result loop discards. -/
noncomputable def faissSearchRaw (v : List ℝ) (k : ℕ) : List (ℤ × ℝ) :=
  ((List.insertionSort (keyLtDesc v) (List.range v.length)).take k).map
      (fun i => (Int.ofNat i, v.getD i 0))
    ++ List.replicate (k - min k v.length) (-1, 0)

/-- The result-formation loop shared by both search paths
(rag.py lines 238-246): keep hits with id different from -1 and score at or
above the threshold, reading the chunk text and metadata at the hit's index. -/
noncomputable def resultLoop (cs : List String) (ms : List ChunkMeta)
    (threshold : ℝ) (hits : List (ℤ × ℝ)) : List (String × ℝ × ChunkMeta) :=
  hits.filterMap (fun p =>
    if p.1 ≠ -1 ∧ threshold ≤ p.2 then
      some (cs.getD p.1.toNat "", p.2, ms.getD p.1.toNat default)
    else none)

/-- LightweightFAISSRAG.search (rag.py lines 199-253).  The source wraps the
body in try/except returning [] on any exception; the branches returning []
below for a missing embeddings matrix or a dimension mismatch model the
numpy/faiss exceptions that except-clause would swallow. -/
noncomputable def search (st : EngineState) (q : String) (topK : ℕ)
    (threshold : ℝ) : List (String × ℝ × ChunkMeta) :=
  if st.chunks.isEmpty then []
  else
    let qts := tokenize q
    if qts.isEmpty then []
    else
      let qv := normalizeIf (queryVec st.vocabulary st.idfWeights qts)
      match st.index with
      | some ixVecs =>
          if ixVecs.any (fun r => r.length != qv.length) then []
          else resultLoop st.chunks st.metadata threshold
            (faissSearchRaw (ixVecs.map (fun e => dot e qv)) topK)
      | none =>
          match st.embeddings with
          | none => []
          | some E =>
              if E.any (fun r => r.length != qv.length) then []
              else
                let sims := E.map (fun e => dot e qv)
                resultLoop st.chunks st.metadata threshold
                  ((npTopK sims topK).map (fun i => (Int.ofNat i, sims.getD i 0)))

/-- The similarity list a freshly built engine computes for a query: the inner
product of every normalized chunk vector with the normalized query vector. -/
noncomputable def simsOf (chunks : List String) (q : String) : List ℝ :=
  (buildVectors chunks).map (fun e => dot e
    (normalizeIf (queryVec (vocabOf (chunks.map tokenize))
      (idfPairs (chunks.map tokenize)) (tokenize q))))

/- ---------------------------------------------------------------------------
Statistics: LightweightFAISSRAG.get_stats (rag.py lines 267-286).
--------------------------------------------------------------------------- -/

/-- The dict get_stats returns: either the not-initialized marker (no chunk
count, no other fields) or the ready snapshot. -/
inductive RagStats
  | notInitialized
  | ready (totalChunks vocabularySize : ℕ) (faissAvailable : Bool)
      (modelName : String) (programs : List (String × ℕ))
  deriving DecidableEq

/-- Count chunks per program name in metadata insertion order
(rag.py lines 272-277). -/
def programCounts (ms : List ChunkMeta) : List (String × ℕ) :=
  ms.foldl (fun acc m =>
    if acc.any (fun p => p.1 == m.programName) then
      acc.map (fun p => if p.1 == m.programName then (p.1, p.2 + 1) else p)
    else acc ++ [(m.programName, 1)]) []

/-- LightweightFAISSRAG.get_stats. -/
def getStats (st : EngineState) : RagStats :=
  if st.chunks.isEmpty then .notInitialized
  else .ready st.chunks.length st.vocabulary.length st.faissAvailable
    "TF-IDF + FAISS" (programCounts st.metadata)

/- ---------------------------------------------------------------------------
Program data and the chunker: _create_chunks (rag.py lines 63-117).
--------------------------------------------------------------------------- -/

/-- A JSON scalar as the chunker sees it: the repository's program files hold
strings in the text sections, but nothing stops a malformed file from holding
a number there, which is what makes _create_chunks raise. -/
inductive PyVal
  | str (s : String)
  | int (n : ℤ)
  deriving DecidableEq

/-- Python truthiness of a scalar. -/
def PyVal.truthy : PyVal → Bool
  | .str s => s ≠ ""
  | .int n => n ≠ 0

/-- One program's JSON record, with the sections the code reads.  A missing
key models dict.get returning its falsy default. -/
structure ProgramData where
  description : Option PyVal
  career : Option PyVal
  detailedDescription : Option PyVal
  faq : List (String × String)
  cost : Option PyVal
  studyPeriod : Option String
  pdfPlan : String
  deriving DecidableEq

/-- The empty program record ({} in Python). -/
def ProgramData.empty : ProgramData :=
  { description := none, career := none, detailedDescription := none,
    faq := [], cost := none, studyPeriod := none, pdfPlan := "" }

instance : Inhabited ProgramData := ⟨ProgramData.empty⟩

/-- Config.PROGRAMS (config.py lines 32-35). -/
def CONFIG_PROGRAMS : List (String × String) :=
  [("ai", "Искусственный интеллект"), ("ai_product", "Управление ИИ-продуктами")]

/-- One content-like section of _create_chunks (rag.py lines 75-84):
`if content and len(content.strip()) > 20` emits a chunk; when the truthy
content is not a string, content.strip() raises AttributeError (modelled as
the error case). -/
def sectionChunk (programName programId sectionKey : String)
    (content : Option PyVal) : Except Unit (List (String × ChunkMeta)) :=
  match content with
  | none => .ok []
  | some v =>
      if v.truthy then
        match v with
        | .str s =>
            if 20 < (pyStrip s).length then
              .ok [("Программа: " ++ programName ++ "\n" ++ s,
                    { programName := programName, programId := programId,
                      sectionName := sectionKey, question := none,
                      kindTag := "content" })]
            else .ok []
        | .int _ => .error ()
      else .ok []

/-- Group the decimal digits of a natural number in threes from the right
(the behaviour of Python's format spec ','), working on a reversed digit
list. -/
def commaRev : List Char → List Char
  | d1 :: d2 :: d3 :: d4 :: rest => d1 :: d2 :: d3 :: ',' :: commaRev (d4 :: rest)
  | l => l

/-- Python f-string formatting of an int with the ',' thousands separator. -/
def fmtComma (n : ℤ) : String :=
  (if n < 0 then "-" else "") ++
    String.mk ((commaRev (toString n.natAbs).toList.reverse).reverse)

/-- The technical-information parts (rag.py lines 100-105): the cost line is
rendered with the ',' format spec, which raises ValueError when the truthy
cost value is a string. -/
def techParts (pd : ProgramData) : Except Unit (List String) := do
  let costPart ← match pd.cost with
    | none => pure ([] : List String)
    | some v =>
        if v.truthy then
          match v with
          | .int n => pure ["Стоимость: " ++ fmtComma n ++ " ₽/год"]
          | .str _ => .error ()
        else pure []
  let periodPart := match pd.studyPeriod with
    | none => []
    | some p => if p ≠ "" then ["Период обучения: " ++ p] else []
  pure (costPart ++ periodPart)

/-- _create_chunks (rag.py lines 63-117): content sections, then FAQ pairs,
then at most one technical chunk; any exception mid-way propagates. -/
def createChunks (programName programId : String) (pd : ProgramData) :
    Except Unit (List (String × ChunkMeta)) := do
  let d ← sectionChunk programName programId "description" pd.description
  let c ← sectionChunk programName programId "career" pd.career
  let dd ← sectionChunk programName programId "detailed_description" pd.detailedDescription
  let faqChunks := pd.faq.filterMap (fun qa =>
    if qa.1 ≠ "" ∧ qa.2 ≠ "" then
      some ("Программа: " ++ programName ++ "\nВопрос: " ++ qa.1 ++
              "\nОтвет: " ++ qa.2,
            { programName := programName, programId := programId,
              sectionName := "faq", question := some qa.1,
              kindTag := "faq" })
    else none)
  let parts ← techParts pd
  let techChunks :=
    if parts ≠ [] then
      [("Программа: " ++ programName ++ "\nТехническая информация:\n" ++
          String.intercalate "\n" parts,
        ({ programName := programName, programId := programId,
           sectionName := "technical", question := none,
           kindTag := "technical" } : ChunkMeta))]
    else []
  pure (d ++ c ++ dd ++ faqChunks ++ techChunks)

/-- The chunk-building loop of index_data (rag.py lines 42-46): chunks and
metadata accumulate per program until the first exception; the Bool records
whether an exception escaped to index_data's except clause. -/
def collectChunks (acc : List String × List ChunkMeta)
    (progs : List (String × ProgramData)) :
    (List String × List ChunkMeta) × Bool :=
  match progs with
  | [] => (acc, false)
  | (pid, pd) :: rest =>
      let pname := ((CONFIG_PROGRAMS.lookup pid).getD pid)
      match createChunks pname pid pd with
      | .error _ => (acc, true)
      | .ok cm => collectChunks (acc.1 ++ cm.map Prod.fst, acc.2 ++ cm.map Prod.snd) rest

/-- LightweightFAISSRAG.index_data (rag.py lines 33-61).  The method clears
self.chunks/self.metadata first, accumulates chunks per program, then (when
no exception occurred and chunks are non-empty) rebuilds the TF-IDF state and
the FAISS index; its except clause swallows any exception, leaving whatever
the fields held at that moment. -/
noncomputable def indexData (st : EngineState)
    (progs : List (String × ProgramData)) : EngineState :=
  match collectChunks ([], []) progs with
  | ((cs, ms), true) =>
      { st with chunks := cs, metadata := ms }
  | ((cs, ms), false) =>
      if cs.isEmpty then { st with chunks := cs, metadata := ms }
      else
        { chunks := cs, metadata := ms,
          vocabulary := vocabOf (cs.map tokenize),
          idfWeights := idfPairs (cs.map tokenize),
          embeddings := some (buildVectors cs),
          index := if st.faissAvailable then some (buildVectors cs) else st.index,
          faissAvailable := st.faissAvailable }

/- ---------------------------------------------------------------------------
DataLoader facade (data_loader.py).
--------------------------------------------------------------------------- -/

/-- The state of a DataLoader: the loaded program records and the RAG engine
(None when _initialize_rag failed). -/
structure DataLoaderState where
  data : List (String × ProgramData)
  ragEngine : Option EngineState

/-- The metadata of a search result: either the chunk metadata the engine
returns or the small dict _fallback_search builds. -/
inductive SearchMeta
  | chunkM (m : ChunkMeta)
  | fallbackM (program : String) (sectionName : String)
  deriving DecidableEq

/-- One string-valued section of search_in_program (data_loader.py lines
84-86): included when the lowercased content contains the lowercased query. -/
def strSection (ql key : String) (v : Option PyVal) : List (String × String) :=
  match v with
  | some (.str s) => if strIn ql (pyLower s) then [(key, s)] else []
  | _ => []

/-- DataLoader.search_in_program (data_loader.py lines 76-92): the sections
of one program record whose string content contains the query
case-insensitively, keyed as the source keys them, in the record's key
order.  An empty pdfPlan models an absent PDF_документы key, hence the
extra non-emptiness guard on that section. -/
def searchInProgram (pd : ProgramData) (q : String) : List (String × String) :=
  let ql := pyLower q
  strSection ql "Описание программы" pd.description ++
  strSection ql "Карьера" pd.career ++
  strSection ql "Описание (подробное)" pd.detailedDescription ++
  pd.faq.filterMap (fun qa =>
    if strIn ql (pyLower qa.2) then some ("Вопросы и ответы - " ++ qa.1, qa.2)
    else none) ++
  strSection ql "Стоимость для россиян" pd.cost ++
  (match pd.studyPeriod with
   | some p => if strIn ql (pyLower p) then [("Период обучения", p)] else []
   | none => []) ++
  (if strIn ql (pyLower pd.pdfPlan) ∧ pd.pdfPlan ≠ "" then
    [("PDF_документы - учебный_план", pd.pdfPlan)] else [])

/-- DataLoader._fallback_search (data_loader.py lines 124-142): substring
scan over every program's sections, each hit reported with the fixed score
0.5, capped at 5 results. -/
noncomputable def fallbackSearch (dl : DataLoaderState) (q : String) :
    List (String × ℝ × SearchMeta) :=
  ((dl.data.map (fun pr =>
      let pname := (CONFIG_PROGRAMS.lookup pr.1).getD pr.1
      (searchInProgram pr.2 q).map (fun sc =>
        ("Программа: " ++ pname ++ "\nРаздел: " ++ sc.1 ++ "\n" ++
            strTake sc.2 500 ++ "...",
         ((1 : ℝ) / 2),
         SearchMeta.fallbackM pname sc.1)))).flatten).take 5

/-- DataLoader.semantic_search (data_loader.py lines 107-122): delegate to
the engine when it exists (with the engine's default threshold 0.1),
otherwise fall back to the substring scan. -/
noncomputable def semanticSearch (dl : DataLoaderState) (q : String)
    (topK : ℕ) : List (String × ℝ × SearchMeta) :=
  match dl.ragEngine with
  | some st => (search st q topK ((1 : ℝ) / 10)).map
      (fun r => (r.1, r.2.1, SearchMeta.chunkM r.2.2))
  | none => fallbackSearch dl q

/-- DataLoader.rebuild_rag_index (data_loader.py lines 163-178): reindex when
the engine and data are present; since index_data swallows every exception,
the try never fails and the method returns True in that case. -/
noncomputable def rebuildRagIndex (dl : DataLoaderState) :
    DataLoaderState × Bool :=
  match dl.ragEngine with
  | some st =>
      if dl.data.isEmpty then (dl, false)
      else ({ dl with ragEngine := some (indexData st dl.data) }, true)
  | none => (dl, false)

/- ---------------------------------------------------------------------------
RecommendationEngine (recommendations.py).
--------------------------------------------------------------------------- -/

/-- self.skill_keywords (recommendations.py lines 18-31). -/
def skillKeywords : List (String × List String) :=
  [("programming", ["python", "java", "javascript", "c++", "программирование", "разработка", "код"]),
   ("ml", ["машинное обучение", "ml", "machine learning", "нейронные сети", "deep learning", "sklearn"]),
   ("data_science", ["анализ данных", "data science", "pandas", "numpy", "статистика", "данные"]),
   ("web_dev", ["веб", "web", "frontend", "backend", "django", "flask", "react"]),
   ("mobile", ["мобильная разработка", "android", "ios", "flutter", "react native"]),
   ("databases", ["база данных", "sql", "postgresql", "mongodb", "database"]),
   ("math", ["математика", "алгебра", "статистика", "вероятность", "алгоритмы"]),
   ("business", ["бизнес", "менеджмент", "управление", "продукт", "аналитика"]),
   ("ai_research", ["исследования", "научная работа", "публикации", "конференции"]),
   ("computer_vision", ["компьютерное зрение", "computer vision", "opencv", "изображения"]),
   ("nlp", ["nlp", "обработка языка", "natural language", "текст"]),
   ("devops", ["devops", "docker", "kubernetes", "ci/cd", "инфраструктура"])]

/-- One career archetype of self.career_paths (recommendations.py lines 33-59). -/
structure CareerPath where
  name : String
  keywords : List String
  skills : List String
  weight : ℚ
  deriving DecidableEq

/-- self.career_paths. -/
def careerPaths : List CareerPath :=
  [{ name := "ml_engineer",
     keywords := ["ml engineer", "ml-инженер", "машинное обучение"],
     skills := ["programming", "ml", "data_science", "math"], weight := 1 },
   { name := "data_scientist",
     keywords := ["data scientist", "аналитик данных", "исследователь данных"],
     skills := ["data_science", "ml", "math", "programming"], weight := 1 },
   { name := "ai_product_manager",
     keywords := ["product manager", "продуктовый менеджер", "управление продуктом"],
     skills := ["business", "ml", "data_science"], weight := 1 },
   { name := "ai_researcher",
     keywords := ["исследователь", "researcher", "научная работа"],
     skills := ["ai_research", "ml", "math", "programming"], weight := 1 },
   { name := "software_engineer",
     keywords := ["разработчик", "программист", "software engineer"],
     skills := ["programming", "web_dev", "databases"], weight := 8/10 }]

/-- dict.get(key, 0) on an association list of rational scores. -/
def dictGet (l : List (String × ℚ)) (k : String) : ℚ := (l.lookup k).getD 0

/-- Skill detection (recommendations.py lines 76-83): per category, count the
keywords occurring in the lowercased text; keep categories with a positive
count, scored count / len(keywords). -/
def detectedSkills (textLower : String) : List (String × ℚ) :=
  skillKeywords.filterMap (fun ck =>
    let m := (ck.2.filter (fun kw => strIn kw textLower)).length
    if 0 < m then some (ck.1, (m : ℚ) / (ck.2.length : ℚ)) else none)

/-- One career archetype's score (recommendations.py lines 87-96): 2 per
direct keyword hit plus the detected-skill scores of its associated skills
weighted by the archetype weight. -/
def careerPathScore (textLower : String) (skills : List (String × ℚ))
    (c : CareerPath) : ℚ :=
  2 * ((c.keywords.filter (fun kw => strIn kw textLower)).length : ℚ) +
    (c.skills.map (fun s =>
      match skills.lookup s with
      | some v => v * c.weight
      | none => 0)).sum

/-- Career-goal detection: keep archetypes with positive score. -/
def careerScores (textLower : String) (skills : List (String × ℚ)) :
    List (String × ℚ) :=
  careerPaths.filterMap (fun c =>
    let sc := careerPathScore textLower skills c
    if 0 < sc then some (c.name, sc) else none)

/-- Value of a digit run (Python int() of the matched group). -/
def digitsVal (ds : List Char) : ℕ :=
  ds.foldl (fun acc c => 10 * acc + (c.toNat - 48)) 0

/-- re.search of a pattern "(\d+)\s*(?:alt1|alt2|...)": leftmost position
where a digit run, optional whitespace and one of the literal alternatives
follow each other; returns the digit group's value. -/
def scanNumBefore (alts : List (List Char)) : List Char → Option ℕ
  | [] => none
  | c :: rest =>
      if c.isDigit then
        let ds := (c :: rest).takeWhile Char.isDigit
        let after := ((c :: rest).dropWhile Char.isDigit).dropWhile isPySpace
        if alts.any (fun a => a.isPrefixOf after) then some (digitsVal ds)
        else scanNumBefore alts rest
      else scanNumBefore alts rest

/-- re.search of a pattern "word\s*(\d+)": leftmost occurrence of the literal
word followed by optional whitespace and a digit run; returns the digit
group's value. -/
def scanNumAfter (word : List Char) : List Char → Option ℕ
  | [] => none
  | c :: rest =>
      if word.isPrefixOf (c :: rest) then
        let after := ((c :: rest).drop word.length).dropWhile isPySpace
        let ds := after.takeWhile Char.isDigit
        if ds.isEmpty then scanNumAfter word rest else some (digitsVal ds)
      else scanNumAfter word rest

/-- The four experience regexes of _extract_experience (recommendations.py
lines 117-127), tried in order; "years?" needs only its "year" prefix. -/
def firstPatternNum (text : String) : Option ℕ :=
  let cs := text.toList
  match scanNumBefore ["лет".toList, "года".toList, "год".toList] cs with
  | some n => some n
  | none =>
  match scanNumAfter "опыт".toList cs with
  | some n => some n
  | none =>
  match scanNumAfter "работаю".toList cs with
  | some n => some n
  | none => scanNumBefore ["year".toList] cs

/-- RecommendationEngine._extract_experience (recommendations.py lines
115-137): explicit numeric pattern, else seniority buckets, else 1. -/
def extractExperience (text : String) : ℕ :=
  match firstPatternNum text with
  | some n => n
  | none =>
      if ["junior", "начинающий", "студент"].any (fun w => strIn w text) then 0
      else if ["middle", "опытный"].any (fun w => strIn w text) then 3
      else if ["senior", "ведущий", "старший"].any (fun w => strIn w text) then 5
      else 1

/-- RecommendationEngine._extract_education (recommendations.py lines 139-146). -/
def extractEducation (text : String) : String :=
  if ["магистр", "кандидат", "phd", "аспирант"].any (fun w => strIn w text) then
    "graduate"
  else if ["бакалавр", "окончил", "университет", "институт"].any
      (fun w => strIn w text) then "bachelor"
  else "other"

/-- The profile analyze_background returns (recommendations.py lines 107-113;
the echoed raw text is omitted). -/
structure UserAnalysis where
  skills : List (String × ℚ)
  careerGoals : List (String × ℚ)
  experienceYears : ℕ
  educationLevel : String
  deriving DecidableEq

/-- RecommendationEngine.analyze_background (recommendations.py lines 63-113). -/
def analyzeBackground (backgroundText : String) : UserAnalysis :=
  let tl := pyLower backgroundText
  { skills := detectedSkills tl,
    careerGoals := careerScores tl (detectedSkills tl),
    experienceYears := extractExperience tl,
    educationLevel := extractEducation tl }

/-- RecommendationEngine._calculate_program_score (recommendations.py lines
183-215): the program-specific linear combination, clamped by min(score, 1.0). -/
def calculateProgramScore (skills careerGoals : List (String × ℚ))
    (programId : String) : ℚ :=
  let score : ℚ :=
    if programId = "ai" then
      dictGet skills "programming" * (3/10) + dictGet skills "ml" * (4/10) +
      dictGet skills "math" * (2/10) + dictGet skills "data_science" * (3/10) +
      dictGet careerGoals "ml_engineer" * (4/10) +
      dictGet careerGoals "data_scientist" * (3/10) +
      dictGet careerGoals "ai_researcher" * (4/10)
    else if programId = "ai_product" then
      dictGet skills "business" * (4/10) + dictGet skills "ml" * (2/10) +
      dictGet skills "programming" * (2/10) + dictGet skills "data_science" * (2/10) +
      dictGet careerGoals "ai_product_manager" * (5/10) +
      dictGet careerGoals "ml_engineer" * (2/10)
    else 0
  min score 1

/-- The domain marker words of _extract_subjects_from_curriculum
(recommendations.py line 231). -/
def domainMarkers : List String :=
  ["дисциплина", "курс", "анализ", "обучение", "технологии", "системы",
   "методы", "машинное", "данных", "программирование", "разработка",
   "mlops", "веб"]

/-- re.sub(r'^\d+', '', s): drop the leading digit run. -/
def dropLeadingDigits (s : String) : String :=
  String.mk (s.toList.dropWhile Char.isDigit)

/-- re.sub(r'\s+\d{4,}$', '', s): when the string ends in a whitespace run
followed by four or more digits, drop that tail. -/
def stripTrailingCode (s : String) : String :=
  let r := s.toList.reverse
  let ds := r.takeWhile Char.isDigit
  let ws := (r.drop ds.length).takeWhile isPySpace
  if 4 ≤ ds.length ∧ 1 ≤ ws.length then
    String.mk ((r.drop (ds.length + ws.length)).reverse)
  else s

/-- RecommendationEngine._clean_subject_name (recommendations.py lines
240-253). -/
def cleanSubjectName (subject : String) : String :=
  pyStrip (stripTrailingCode (dropLeadingDigits subject))

/-- Python text.split('\n'). -/
def splitLines (s : String) : List String :=
  (s.toList.splitOn '\n').map String.mk

/-- The per-line keep condition of _extract_subjects_from_curriculum
(recommendations.py lines 229-231), applied to the stripped line. -/
def subjectLineKeep (line : String) : Prop :=
  10 < line.length ∧ line.length < 200 ∧ ¬ pyIsDigit line = true ∧
    domainMarkers.any (fun w => strIn w (pyLower line)) = true

instance (line : String) : Decidable (subjectLineKeep line) := by
  unfold subjectLineKeep; infer_instance

/-- RecommendationEngine._extract_subjects_from_curriculum (recommendations.py
lines 217-238), taking the already-extracted curriculum text (the source
reads it out of program_data['PDF_документы']['учебный_план']). -/
def extractSubjectsFromCurriculum (pdfContent : String) : List String :=
  if pdfContent = "" then []
  else
    (((splitLines pdfContent).map pyStrip).filterMap (fun line =>
      if subjectLineKeep line then
        let c := cleanSubjectName line
        if c ≠ "" ∧ 5 < c.length then some c else none
      else none)).take 20

/-- Python `key in dict` on an association list. -/
def dictHas (l : List (String × ℚ)) (k : String) : Bool := (l.lookup k).isSome

/-- One subject recommendation entry (recommendations.py lines 301-305). -/
structure SubjectRec where
  subject : String
  relevanceScore : ℚ
  reasoning : String
  deriving DecidableEq

/-- The relevance accumulation for one subject (recommendations.py lines
262-298): keyword-category overlaps and career-goal-specific word overlaps,
each block appending its reason string. -/
def subjectRelevance (ua : UserAnalysis) (subject : String) : ℚ × List String :=
  let sl := pyLower subject
  let kwHit := fun (cat : String) =>
    ((skillKeywords.lookup cat).getD []).any (fun kw => strIn kw sl)
  let b1 : ℚ × List String :=
    if kwHit "ml" then
      if dictHas ua.skills "ml" then (4/10, ["соответствует вашему опыту в ML"])
      else (3/10, ["поможет изучить машинное обучение"])
    else (0, [])
  let b2 : ℚ × List String :=
    if kwHit "programming" ∧ dictHas ua.skills "programming" then
      (3/10, ["развивает навыки программирования"])
    else (0, [])
  let b3 : ℚ × List String :=
    if kwHit "data_science" ∧ dictHas ua.skills "data_science" then
      (3/10, ["углубляет знания в анализе данных"])
    else (0, [])
  let b4 : ℚ × List String :=
    if kwHit "business" ∧
        (dictHas ua.skills "business" ∨ dictHas ua.careerGoals "ai_product_manager") then
      (4/10, ["важно для продуктовых ролей"])
    else (0, [])
  let b5 : ℚ × List String :=
    if dictHas ua.careerGoals "ml_engineer" ∧
        ["алгоритм", "модел", "нейрон"].any (fun w => strIn w sl) then
      (3/10, ["необходимо для ML-инженера"])
    else (0, [])
  let b6 : ℚ × List String :=
    if dictHas ua.careerGoals "ai_product_manager" ∧
        ["продукт", "управление", "аналитика"].any (fun w => strIn w sl) then
      (3/10, ["важно для AI Product Manager"])
    else (0, [])
  (b1.1 + b2.1 + b3.1 + b4.1 + b5.1 + b6.1,
   b1.2 ++ b2.2 ++ b3.2 ++ b4.2 ++ b5.2 ++ b6.2)

/-- Descending order on relevance matching Python's stable
list.sort(reverse=True): insertion sort with this non-strict comparison
places each element before the first element of not-larger score, keeping
the original order among equal scores. -/
def subjectRecBefore (a b : SubjectRec) : Prop :=
  b.relevanceScore ≤ a.relevanceScore

instance : DecidableRel subjectRecBefore := fun a b => by
  unfold subjectRecBefore; infer_instance

/-- RecommendationEngine._recommend_subjects (recommendations.py lines
255-309): keep subjects above the 0.2 threshold, then stable-sort by
descending relevance. -/
def recommendSubjects (ua : UserAnalysis) (subjects : List String) :
    List SubjectRec :=
  let recs := subjects.filterMap (fun s =>
    let rv := subjectRelevance ua s
    if (1/5 : ℚ) < rv.1 then
      some { subject := s, relevanceScore := rv.1,
             reasoning := if rv.2.isEmpty then "общее развитие в области ИИ"
               else String.intercalate ", " rv.2 }
    else none)
  List.insertionSort subjectRecBefore recs

/-- RecommendationEngine._get_suitability_text (recommendations.py lines
311-320). -/
def getSuitabilityText (score : ℚ) : String :=
  if 7/10 ≤ score then "отлично подходит"
  else if 5/10 ≤ score then "хорошо подходит"
  else if 3/10 ≤ score then "подходит с некоторыми условиями"
  else "требует дополнительной подготовки"

/-- RecommendationEngine._generate_reasoning (recommendations.py lines
322-351). -/
def generateReasoning (ua : UserAnalysis) (programId : String) : String :=
  let reasons : List String :=
    if programId = "ai" then
      (if dictHas ua.skills "ml" then ["у вас есть опыт в машинном обучении"] else []) ++
      (if dictHas ua.skills "programming" then ["вы владеете программированием"] else []) ++
      (if dictHas ua.careerGoals "ml_engineer" then
        ["соответствует вашей цели стать ML-инженером"] else []) ++
      (if 2 ≤ ua.experienceYears then
        ["ваш опыт позволяет успешно освоить программу"] else [])
    else if programId = "ai_product" then
      (if dictHas ua.skills "business" then
        ["у вас есть понимание бизнес-процессов"] else []) ++
      (if dictHas ua.careerGoals "ai_product_manager" then
        ["соответствует цели стать AI Product Manager"] else []) ++
      (if dictHas ua.skills "ml" ∨ dictHas ua.skills "data_science" then
        ["техническая база поможет в работе с командами разработки"] else [])
    else []
  let reasons :=
    if reasons.isEmpty then ["программа поможет развить навыки в области ИИ"]
    else reasons
  String.intercalate "; " reasons

/-- One program's entry in the result of get_program_recommendations
(recommendations.py lines 173-179). -/
structure ProgramRecommendation where
  programScore : ℚ
  suitability : String
  recommendedSubjects : List SubjectRec
  reasoning : String
  programId : String
  deriving DecidableEq

/-- RecommendationEngine.get_program_recommendations (recommendations.py
lines 148-181): one entry per configured program, keyed by display name,
with the per-program subject recommendations truncated to the top 5. -/
def getProgramRecommendations (ua : UserAnalysis)
    (curriculumData : List (String × ProgramData)) :
    List (String × ProgramRecommendation) :=
  CONFIG_PROGRAMS.map (fun pp =>
    let pd := (curriculumData.lookup pp.1).getD ProgramData.empty
    let programScore := calculateProgramScore ua.skills ua.careerGoals pp.1
    let subjects := extractSubjectsFromCurriculum pd.pdfPlan
    (pp.2,
     { programScore := programScore,
       suitability := getSuitabilityText programScore,
       recommendedSubjects := (recommendSubjects ua subjects).take 5,
       reasoning := generateReasoning ua pp.1,
       programId := pp.1 }))

/- ---------------------------------------------------------------------------
Helper lemmas about norms and vectors.
--------------------------------------------------------------------------- -/

lemma sum_sq_nonneg (v : List ℝ) : 0 ≤ (v.map (fun x => x ^ 2)).sum := by
  apply List.sum_nonneg
  intro x hx
  obtain ⟨y, -, rfl⟩ := List.mem_map.1 hx
  positivity

lemma l2norm_nonneg (v : List ℝ) : 0 ≤ l2norm v := Real.sqrt_nonneg _

lemma sum_map_div (v : List ℝ) (c : ℝ) :
    (v.map (fun x => x / c)).sum = v.sum / c := by
  induction v with
  | nil => simp
  | cons a l ih => simp [ih, add_div]

lemma all_zero_of_sum_sq_zero {v : List ℝ}
    (h : (v.map (fun x => x ^ 2)).sum = 0) : ∀ x ∈ v, x = 0 := by
  induction v with
  | nil => simp
  | cons a l ih =>
      simp only [List.map_cons, List.sum_cons] at h
      have ha : a ^ 2 = 0 := by
        have h1 : 0 ≤ a ^ 2 := sq_nonneg a
        have h2 : 0 ≤ (l.map (fun x => x ^ 2)).sum := sum_sq_nonneg l
        linarith
      intro x hx
      rcases List.mem_cons.1 hx with rfl | hx
      · exact pow_eq_zero_iff (n := 2) (by norm_num) |>.1 ha
      · exact ih (by linarith [sq_nonneg a]) x hx

lemma all_zero_of_l2norm_zero {v : List ℝ} (h : l2norm v = 0) :
    ∀ x ∈ v, x = 0 := by
  apply all_zero_of_sum_sq_zero
  have := (Real.sqrt_eq_zero (sum_sq_nonneg v)).1 h
  exact this

lemma l2norm_map_div (v : List ℝ) {c : ℝ} (hc : 0 < c) :
    l2norm (v.map (fun x => x / c)) = l2norm v / c := by
  unfold l2norm
  have h1 : (v.map (fun x => x / c)).map (fun x => x ^ 2) =
      (v.map (fun x => x ^ 2)).map (fun x => x / c ^ 2) := by
    simp only [List.map_map]
    apply List.map_congr_left
    intro a _
    simp [div_pow]
  rw [h1, sum_map_div, Real.sqrt_div (sum_sq_nonneg v), Real.sqrt_sq hc.le]

/-- The normalization step produces a unit vector or leaves an all-zero
vector unchanged. -/
lemma normalizeIf_unit_or_zero (v : List ℝ) :
    l2norm (normalizeIf v) = 1 ∨ ∀ x ∈ normalizeIf v, x = 0 := by
  unfold normalizeIf
  by_cases h : 0 < l2norm v
  · left
    rw [if_pos h, l2norm_map_div v h, div_self (ne_of_gt h)]
  · right
    rw [if_neg h]
    have hz : l2norm v = 0 := le_antisymm (not_lt.1 h) (l2norm_nonneg v)
    exact all_zero_of_l2norm_zero hz

lemma l2norm_zero_vec {v : List ℝ} (h : ∀ x ∈ v, x = 0) : l2norm v = 0 := by
  unfold l2norm
  have : (v.map (fun x => x ^ 2)).sum = 0 := by
    apply List.sum_eq_zero
    intro x hx
    obtain ⟨y, hy, rfl⟩ := List.mem_map.1 hx
    rw [h y hy]; norm_num
  rw [this, Real.sqrt_zero]

lemma normalizeIf_of_zero {v : List ℝ} (h : ∀ x ∈ v, x = 0) :
    normalizeIf v = v := by
  unfold normalizeIf
  rw [l2norm_zero_vec h]
  simp

lemma tfidfRaw_of_empty (docs : List (List String)) :
    ∀ x ∈ tfidfRaw docs [], x = 0 := by
  unfold tfidfRaw
  simp

/- ---------------------------------------------------------------------------
Claim C2.
--------------------------------------------------------------------------- -/

/-- Claim C2 (amended): after an index build over a non-empty chunk set,
every stored chunk vector has L2 norm exactly 1 or is exactly the zero
vector, and the vector of a chunk whose token list after tokenization and
filtering is empty is exactly the zero vector.  (A zero vector can also
arise for a chunk with a non-empty token list, when each of its tokens
occurs in every chunk and so has IDF weight 0 - see the counterexample.) -/
theorem C2_vectors_unit_or_zero (chunks : List String) (hne : chunks ≠ []) :
    (∀ v ∈ buildVectors chunks, l2norm v = 1 ∨ ∀ x ∈ v, x = 0) ∧
    (∀ i, ∀ hi : i < chunks.length, tokenize (chunks.get ⟨i, hi⟩) = [] →
      ∀ x ∈ (buildVectors chunks).getD i [], x = 0) := by
  constructor
  · intro v hv
    obtain ⟨d, -, rfl⟩ := List.mem_map.1 hv
    exact normalizeIf_unit_or_zero _
  · intro i hi htok x hx
    have hlen : i < (buildVectors chunks).length := by
      unfold buildVectors
      simpa using hi
    rw [List.getD_eq_getElem _ _ hlen] at hx
    unfold buildVectors at hx
    rw [List.getElem_map, List.getElem_map] at hx
    rw [show (chunks[i] : String) = chunks.get ⟨i, hi⟩ from rfl, htok] at hx
    rw [normalizeIf_of_zero (tfidfRaw_of_empty _)] at hx
    exact tfidfRaw_of_empty _ x hx

/-- Witness for C2 at a concrete chunk set. -/
theorem C2_vectors_unit_or_zero_witness :
    (["alpha", "alpha"] : List String) ≠ [] ∧
    (∀ v ∈ buildVectors ["alpha", "alpha"], l2norm v = 1 ∨ ∀ x ∈ v, x = 0) :=
  ⟨by decide, (C2_vectors_unit_or_zero ["alpha", "alpha"] (by decide)).1⟩

lemma docs_alpha_alpha : (["alpha", "alpha"] : List String).map tokenize =
    [["alpha"], ["alpha"]] := by decide

lemma idf_alpha_alpha : idfFun [["alpha"], ["alpha"]] "alpha" = 0 := by
  have h : dfOr1 [["alpha"], ["alpha"]] "alpha" = 2 := by decide
  unfold idfFun
  rw [h]
  norm_num

lemma buildVectors_alpha_alpha :
    buildVectors ["alpha", "alpha"] = [[0], [0]] := by
  have hv : vocabOf [["alpha"], ["alpha"]] = ["alpha"] := by decide
  have hraw : tfidfRaw [["alpha"], ["alpha"]] ["alpha"] = [0] := by
    unfold tfidfRaw
    rw [if_neg (by decide), hv]
    simp [idf_alpha_alpha]
  unfold buildVectors
  rw [docs_alpha_alpha]
  simp only [List.map_cons, List.map_nil, hraw]
  rw [normalizeIf_of_zero (by simp)]

/-- Counterexample to C2 as stated: both chunks "alpha" tokenize to the
non-empty token list ["alpha"], yet their stored vectors are zero (the lone
token occurs in every chunk, so its IDF weight is ln(2/2) = 0), and a zero
vector's norm is not within 1e-6 of 1. -/
theorem C2_counterexample :
    tokenize "alpha" ≠ [] ∧
    buildVectors ["alpha", "alpha"] = [[0], [0]] ∧
    ¬ |l2norm [(0 : ℝ)] - 1| ≤ 1 / 1000000 := by
  refine ⟨by decide, buildVectors_alpha_alpha, ?_⟩
  have h : l2norm [(0 : ℝ)] = 0 := l2norm_zero_vec (by simp)
  rw [h]
  norm_num

/- ---------------------------------------------------------------------------
Claim C6.
--------------------------------------------------------------------------- -/

/-- The chunk count a stats snapshot reports: the ready snapshot carries
total_chunks, the not-initialized snapshot carries no count at all. -/
def statsChunkCount : RagStats → Option ℕ
  | .notInitialized => none
  | .ready n _ _ _ _ => some n

/-- Claim C6 (amended): with an empty corpus every search returns the empty
list without error, and get_stats returns the not-initialized snapshot
(which reports no chunk count rather than a chunk count of 0). -/
theorem C6_empty_corpus (st : EngineState) (h : st.chunks = [])
    (q : String) (k : ℕ) (t : ℝ) :
    search st q k t = [] ∧ getStats st = RagStats.notInitialized := by
  constructor
  · unfold search
    rw [if_pos (by rw [h]; rfl)]
  · unfold getStats
    rw [if_pos (by rw [h]; rfl)]

/-- Witness for C6 on a freshly constructed engine. -/
theorem C6_empty_corpus_witness :
    (initState false).chunks = [] ∧
    search (initState false) "anything" 5 (1 / 10) = [] :=
  ⟨rfl, (C6_empty_corpus (initState false) rfl "anything" 5 (1 / 10)).1⟩

/-- Counterexample to C6 as stated: the stats of an engine with an empty
corpus do not report a chunk count equal to 0 - they are the bare
not-initialized marker. -/
theorem C6_counterexample :
    statsChunkCount (getStats (initState false)) ≠ some 0 := by decide

/- ---------------------------------------------------------------------------
Claim C8.
--------------------------------------------------------------------------- -/

/-- The keep-condition C8 literally states: stripped line length between 10
and 200 (read inclusively), not purely numeric, containing a domain marker -
with no condition on the cleaned name. -/
def subjectKeepClaim (line : String) : Prop :=
  10 ≤ line.length ∧ line.length ≤ 200 ∧ ¬ pyIsDigit line = true ∧
    domainMarkers.any (fun w => strIn w (pyLower line)) = true

instance (line : String) : Decidable (subjectKeepClaim line) := by
  unfold subjectKeepClaim; infer_instance

/-- Subject extraction as claim C8 words it: filter the stripped lines by the
claimed keep-condition, clean each survivor, cap at 20. -/
def claimExtractOrig (text : String) : List String :=
  if text = "" then []
  else ((((splitLines text).map pyStrip).filter
    (fun l => decide (subjectKeepClaim l))).map cleanSubjectName).take 20

/-- The keep-condition as amended: the source additionally requires the
cleaned name to be non-empty and longer than 5 characters, and reads the
length bounds strictly. -/
def subjectKeepAmended (line : String) : Prop :=
  subjectLineKeep line ∧ cleanSubjectName line ≠ "" ∧
    5 < (cleanSubjectName line).length

instance (line : String) : Decidable (subjectKeepAmended line) := by
  unfold subjectKeepAmended; infer_instance

/-- Subject extraction as the amended claim words it. -/
def claimExtractAmended (text : String) : List String :=
  if text = "" then []
  else ((((splitLines text).map pyStrip).filter
    (fun l => decide (subjectKeepAmended l))).map cleanSubjectName).take 20

lemma filterMap_if_eq_filter_map {α β : Type _} (p : α → Prop) [DecidablePred p]
    (g : α → β) (l : List α) :
    l.filterMap (fun a => if p a then some (g a) else none) =
      (l.filter (fun a => decide (p a))).map g := by
  induction l with
  | nil => rfl
  | cons a l ih =>
      by_cases h : p a <;>
        simp [List.filterMap_cons, List.filter_cons, h, ih]

/-- Claim C8 (amended): extract_subjects keeps exactly the stripped lines
whose length is strictly between 10 and 200, that are not purely numeric,
contain a domain marker word, and whose cleaned name is non-empty and longer
than 5 characters; each kept line is reported cleaned, in source order,
capped at 20 entries; and the curriculum text "42" yields the empty list. -/
theorem C8_extract_subjects (text : String) :
    extractSubjectsFromCurriculum text = claimExtractAmended text ∧
    (extractSubjectsFromCurriculum text).length ≤ 20 ∧
    extractSubjectsFromCurriculum "42" = [] := by
  have key : ∀ s : String, extractSubjectsFromCurriculum s = claimExtractAmended s := by
    intro s
    unfold extractSubjectsFromCurriculum claimExtractAmended
    by_cases hs : s = ""
    · simp [hs]
    · rw [if_neg hs, if_neg hs]
      congr 1
      rw [← filterMap_if_eq_filter_map (subjectKeepAmended)]
      apply List.filterMap_congr
      intro a _
      by_cases h1 : subjectLineKeep a
      · by_cases h2 : cleanSubjectName a ≠ "" ∧ 5 < (cleanSubjectName a).length
        · rw [if_pos h1, if_pos h2, if_pos ⟨h1, h2⟩]
        · rw [if_pos h1, if_neg h2, if_neg (fun hk => h2 ⟨hk.2.1, hk.2.2⟩)]
      · rw [if_neg h1, if_neg (fun hk => h1 hk.1)]
  refine ⟨key text, ?_, by decide⟩
  rw [key text]
  unfold claimExtractAmended
  by_cases hs : text = ""
  · simp [hs]
  · rw [if_neg hs]
    exact (List.length_take_le _ _).trans (le_refl 20)

/-- Counterexample to C8 as stated: the line "0000000курс" has length 11,
is not purely numeric and contains the marker word "курс", so the claim
keeps it (cleaned to "курс"); the source drops it because the cleaned name
has only 4 characters. -/
theorem C8_counterexample :
    extractSubjectsFromCurriculum "0000000курс" = [] ∧
    claimExtractOrig "0000000курс" = ["курс"] := by
  constructor <;> decide

/- ---------------------------------------------------------------------------
Claim C9.
--------------------------------------------------------------------------- -/

/-- Claim C9: experience extraction returns the integer of the first matching
explicit numeric pattern when one exists; otherwise it maps junior-level
words to 0, middle-level words to 3, senior-level words to 5, and defaults
to 1; and on the profile text "I work as a Python programmer for 3 years,
studying machine learning" the analyzed experience_years equals 3. -/
theorem C9_experience_extraction (text : String) (n : ℕ) :
    (firstPatternNum text = some n → extractExperience text = n) ∧
    (firstPatternNum text = none →
      extractExperience text =
        if ["junior", "начинающий", "студент"].any (fun w => strIn w text) then 0
        else if ["middle", "опытный"].any (fun w => strIn w text) then 3
        else if ["senior", "ведущий", "старший"].any (fun w => strIn w text) then 5
        else 1) ∧
    (analyzeBackground
      "I work as a Python programmer for 3 years, studying machine learning").experienceYears = 3 := by
  refine ⟨fun h => ?_, fun h => ?_, by decide⟩
  · unfold extractExperience
    rw [h]
  · unfold extractExperience
    rw [h]

/-- Witness for C9 at concrete profile texts for both branches. -/
theorem C9_experience_extraction_witness :
    extractExperience "опыт 7" = 7 ∧ extractExperience "junior developer" = 0 := by
  constructor
  · exact (C9_experience_extraction "опыт 7" 7).1 (by decide)
  · rw [(C9_experience_extraction "junior developer" 0).2.1 (by decide)]
    decide

/- ---------------------------------------------------------------------------
Claim C7.
--------------------------------------------------------------------------- -/

lemma lookup_mem {α β : Type _} [BEq α] [LawfulBEq α] {l : List (α × β)} {k : α}
    {v : β} (h : l.lookup k = some v) : (k, v) ∈ l := by
  induction l with
  | nil => simp [List.lookup] at h
  | cons a es ih =>
      rw [List.lookup] at h
      cases hk : (k == a.1) with
      | true =>
          rw [hk] at h
          cases h
          have : k = a.1 := eq_of_beq hk
          subst this
          exact List.mem_cons_self _ _
      | false =>
          rw [hk] at h
          exact List.mem_cons_of_mem _ (ih h)

lemma detectedSkills_nonneg (t : String) : ∀ p ∈ detectedSkills t, 0 ≤ p.2 := by
  intro p hp
  obtain ⟨ck, -, hck⟩ := List.mem_filterMap.1 hp
  dsimp only at hck
  split at hck
  · cases hck
    positivity
  · cases hck

lemma careerScores_nonneg (t : String) (sk : List (String × ℚ)) :
    ∀ p ∈ careerScores t sk, 0 ≤ p.2 := by
  intro p hp
  obtain ⟨c, -, hc⟩ := List.mem_filterMap.1 hp
  dsimp only at hc
  split at hc
  · cases hc
    next hm => exact le_of_lt hm
  · cases hc

lemma dictGet_nonneg {l : List (String × ℚ)} (h : ∀ p ∈ l, 0 ≤ p.2)
    (k : String) : 0 ≤ dictGet l k := by
  unfold dictGet
  cases hl : l.lookup k with
  | none => simp
  | some v =>
      simpa using h (k, v) (lookup_mem hl)

/-- Claim C7: for every analyzed profile the program score lies in [0, 1],
and for the technical AI program it is exactly the fixed linear combination
of the claim's weight table clamped by min(score, 1). -/
theorem C7_score_program_bounds (text : String) (pid : String) :
    (0 ≤ calculateProgramScore (analyzeBackground text).skills
        (analyzeBackground text).careerGoals pid ∧
      calculateProgramScore (analyzeBackground text).skills
        (analyzeBackground text).careerGoals pid ≤ 1) ∧
    calculateProgramScore (analyzeBackground text).skills
        (analyzeBackground text).careerGoals "ai" =
      min (dictGet (analyzeBackground text).skills "programming" * (3/10) +
           dictGet (analyzeBackground text).skills "ml" * (4/10) +
           dictGet (analyzeBackground text).skills "math" * (2/10) +
           dictGet (analyzeBackground text).skills "data_science" * (3/10) +
           dictGet (analyzeBackground text).careerGoals "ml_engineer" * (4/10) +
           dictGet (analyzeBackground text).careerGoals "data_scientist" * (3/10) +
           dictGet (analyzeBackground text).careerGoals "ai_researcher" * (4/10)) 1 := by
  have hsk : ∀ p ∈ (analyzeBackground text).skills, 0 ≤ p.2 :=
    detectedSkills_nonneg _
  have hcg : ∀ p ∈ (analyzeBackground text).careerGoals, 0 ≤ p.2 :=
    careerScores_nonneg _ _
  have hS := fun k => dictGet_nonneg hsk k
  have hC := fun k => dictGet_nonneg hcg k
  refine ⟨⟨?_, ?_⟩, ?_⟩
  · unfold calculateProgramScore
    apply le_min _ zero_le_one
    by_cases h1 : pid = "ai"
    · rw [if_pos h1]
      have := hS "programming"; have := hS "ml"; have := hS "math"
      have := hS "data_science"; have := hC "ml_engineer"
      have := hC "data_scientist"; have := hC "ai_researcher"
      positivity
    · rw [if_neg h1]
      by_cases h2 : pid = "ai_product"
      · rw [if_pos h2]
        have := hS "business"; have := hS "ml"; have := hS "programming"
        have := hS "data_science"; have := hC "ai_product_manager"
        have := hC "ml_engineer"
        positivity
      · rw [if_neg h2]
  · exact min_le_right _ _
  · unfold calculateProgramScore
    rw [if_pos rfl]

/- ---------------------------------------------------------------------------
Claim C10.
--------------------------------------------------------------------------- -/

/-- Claim C10: every per-program recommendation entry carries at most 5
recommended subjects - the scorer truncates the ranked subject list to the
top 5. -/
theorem C10_top5_subjects (ua : UserAnalysis)
    (cd : List (String × ProgramData)) :
    ∀ r ∈ getProgramRecommendations ua cd,
      r.2.recommendedSubjects.length ≤ 5 := by
  intro r hr
  obtain ⟨pp, -, rfl⟩ := List.mem_map.1 hr
  exact List.length_take_le _ _

/-- The recommendation entry produced for the AI program on an empty profile
and empty curriculum data. -/
def c10Example : String × ProgramRecommendation :=
  ("Искусственный интеллект",
   { programScore := 0,
     suitability := "требует дополнительной подготовки",
     recommendedSubjects := [],
     reasoning := "программа поможет развить навыки в области ИИ",
     programId := "ai" })

/-- An empty user profile, used by the C10 witness. -/
def emptyProfile : UserAnalysis :=
  { skills := [], careerGoals := [], experienceYears := 1,
    educationLevel := "other" }

lemma c10_eval : getProgramRecommendations emptyProfile [] =
    [c10Example,
     ("Управление ИИ-продуктами",
      { programScore := 0,
        suitability := "требует дополнительной подготовки",
        recommendedSubjects := [],
        reasoning := "программа поможет развить навыки в области ИИ",
        programId := "ai_product" })] := by
  have hs1 : calculateProgramScore [] [] "ai" = 0 := by
    norm_num [calculateProgramScore, dictGet, List.lookup]
  have hs2 : calculateProgramScore [] [] "ai_product" = 0 := by
    norm_num [calculateProgramScore, dictGet, List.lookup]
  have hsuit : getSuitabilityText 0 = "требует дополнительной подготовки" := by
    norm_num [getSuitabilityText]
  have hr1 : generateReasoning emptyProfile "ai" =
      "программа поможет развить навыки в области ИИ" := by decide
  have hr2 : generateReasoning emptyProfile "ai_product" =
      "программа поможет развить навыки в области ИИ" := by decide
  have hrec : recommendSubjects emptyProfile
      (extractSubjectsFromCurriculum ProgramData.empty.pdfPlan) = [] := by decide
  unfold getProgramRecommendations emptyProfile
  simp only [CONFIG_PROGRAMS, List.map_cons, List.map_nil, List.lookup,
    Option.getD_none]
  unfold emptyProfile at hr1 hr2 hrec
  rw [hs1, hs2, hsuit, hr1, hr2, hrec]
  simp [c10Example]

/-- Witness for C10 on a concrete profile and curriculum. -/
theorem C10_top5_subjects_witness :
    c10Example ∈ getProgramRecommendations emptyProfile [] ∧
    c10Example.2.recommendedSubjects.length ≤ 5 :=
  ⟨by rw [c10_eval]; exact List.mem_cons_self _ _,
   C10_top5_subjects emptyProfile [] c10Example
     (by rw [c10_eval]; exact List.mem_cons_self _ _)⟩

/- ---------------------------------------------------------------------------
Claim C5.
--------------------------------------------------------------------------- -/

lemma mem_strSection {ql key : String} {v : Option PyVal}
    {sc : String × String} (h : sc ∈ strSection ql key v) :
    strIn ql (pyLower sc.2) = true := by
  unfold strSection at h
  match v with
  | none => cases h
  | some (.int n) => cases h
  | some (.str s) =>
      dsimp only at h
      by_cases hh : strIn ql (pyLower s) = true
      · rw [if_pos hh] at h
        rcases List.mem_singleton.1 h with rfl
        exact hh
      · rw [if_neg hh] at h
        cases h

/-- Every section search_in_program returns contains the query
case-insensitively. -/
lemma searchInProgram_contains {pd : ProgramData} {q : String}
    {sc : String × String} (h : sc ∈ searchInProgram pd q) :
    strIn (pyLower q) (pyLower sc.2) = true := by
  unfold searchInProgram at h
  simp only [List.mem_append] at h
  rcases h with ((((((h | h) | h) | h) | h) | h) | h)
  · exact mem_strSection h
  · exact mem_strSection h
  · exact mem_strSection h
  · obtain ⟨qa, -, hqa⟩ := List.mem_filterMap.1 h
    by_cases hh : strIn (pyLower q) (pyLower qa.2) = true
    · rw [if_pos hh] at hqa
      cases hqa
      exact hh
    · rw [if_neg hh] at hqa
      cases hqa
  · exact mem_strSection h
  · match hsp : pd.studyPeriod with
    | none => rw [hsp] at h; cases h
    | some p =>
        rw [hsp] at h
        dsimp only at h
        by_cases hh : strIn (pyLower q) (pyLower p) = true
        · rw [if_pos hh] at h
          rcases List.mem_singleton.1 h with rfl
          exact hh
        · rw [if_neg hh] at h
          cases h
  · by_cases hh : strIn (pyLower q) (pyLower pd.pdfPlan) = true ∧ pd.pdfPlan ≠ ""
    · rw [if_pos hh] at h
      rcases List.mem_singleton.1 h with rfl
      exact hh.1
    · rw [if_neg hh] at h
      cases h

/-- Claim C5 (amended): the facade falls back to the case-insensitive
substring scan only when the RAG engine itself is absent (its initialization
failed); the fallback assigns every hit the fixed score 0.5, caps the result
at 5 entries, and each hit's metadata names a section of a loaded record
whose content contains the query case-insensitively. -/
theorem C5_fallback_only_without_engine (dl : DataLoaderState) (q : String)
    (k : ℕ) (h : dl.ragEngine = none) :
    semanticSearch dl q k = fallbackSearch dl q ∧
    (∀ r ∈ fallbackSearch dl q, r.2.1 = 1 / 2) ∧
    (fallbackSearch dl q).length ≤ 5 ∧
    (∀ r ∈ fallbackSearch dl q, ∃ pr ∈ dl.data, ∃ sc ∈ searchInProgram pr.2 q,
      strIn (pyLower q) (pyLower sc.2) = true ∧
      r.2.2 = SearchMeta.fallbackM ((CONFIG_PROGRAMS.lookup pr.1).getD pr.1) sc.1) := by
  refine ⟨?_, ?_, ?_, ?_⟩
  · unfold semanticSearch
    rw [h]
  · intro r hr
    unfold fallbackSearch at hr
    have hr' := List.mem_of_mem_take hr
    obtain ⟨l, hl, hrl⟩ := List.mem_flatten.1 hr'
    obtain ⟨pr, -, rfl⟩ := List.mem_map.1 hl
    obtain ⟨sc, -, rfl⟩ := List.mem_map.1 hrl
    rfl
  · exact List.length_take_le _ _
  · intro r hr
    unfold fallbackSearch at hr
    have hr' := List.mem_of_mem_take hr
    obtain ⟨l, hl, hrl⟩ := List.mem_flatten.1 hr'
    obtain ⟨pr, hpr, rfl⟩ := List.mem_map.1 hl
    obtain ⟨sc, hsc, rfl⟩ := List.mem_map.1 hrl
    exact ⟨pr, hpr, sc, hsc, searchInProgram_contains hsc, rfl⟩

/-- The record and loader used by the C5 counterexample: one program whose
description contains the query, and an engine that exists but was never
indexed (zero chunks). -/
def c5Record : ProgramData :=
  { ProgramData.empty with
    description := some (.str "this program teaches machine learning and data science") }

noncomputable def c5Loader : DataLoaderState :=
  { data := [("ai", c5Record)], ragEngine := some (initState false) }

/-- Witness for C5: with the engine absent the facade returns exactly the
fallback results. -/
theorem C5_fallback_only_without_engine_witness :
    ({ data := [("ai", c5Record)], ragEngine := none } : DataLoaderState).ragEngine = none ∧
    semanticSearch { data := [("ai", c5Record)], ragEngine := none } "machine learning" 5 =
      fallbackSearch { data := [("ai", c5Record)], ragEngine := none } "machine learning" :=
  ⟨rfl, (C5_fallback_only_without_engine _ "machine learning" 5 rfl).1⟩

/-- Counterexample to C5 as stated: the engine exists but holds zero chunks
(the index was never built), a record's description contains the query, yet
semantic_search returns the engine's empty result instead of falling back -
the fallback scan would have returned a hit. -/
theorem C5_counterexample :
    semanticSearch c5Loader "machine learning" 5 = [] ∧
    fallbackSearch c5Loader "machine learning" ≠ [] := by
  constructor
  · unfold semanticSearch c5Loader
    simp only
    rw [show search (initState false) "machine learning" 5 ((1 : ℝ) / 10) = []
      from by unfold search; rw [if_pos (by rfl)]]
    rfl
  · unfold fallbackSearch c5Loader
    have hsp : searchInProgram c5Record "machine learning" =
        [("Описание программы",
          "this program teaches machine learning and data science")] := by decide
    simp [hsp]

/- ---------------------------------------------------------------------------
Claim C3.
--------------------------------------------------------------------------- -/

/-- A well-formed program record whose description chunk indexes cleanly. -/
def goodProg : ProgramData :=
  { ProgramData.empty with
    description := some (.str "machine learning and data science master program") }

/-- A malformed record: a truthy non-string description, on which
_create_chunks calls content.strip() and raises AttributeError. -/
def badProg : ProgramData :=
  { ProgramData.empty with description := some (.int 12345) }

/-- A previously built, working index over goodProg. -/
noncomputable def c3Prev : EngineState := indexData (initState false) [("ai", goodProg)]

/-- Claim C3 is the spec's intent and the code violates it: index_data clears
self.chunks/self.metadata before rebuilding, so when chunk creation raises
(here: on badProg) the swallowed exception leaves the old one-chunk index
destroyed (chunks empty, stale vectors), and rebuild_rag_index still returns
True - the failure is not reported to the caller. -/
theorem C3_failed_rebuild_destroys_index :
    c3Prev.chunks =
      ["Программа: Искусственный интеллект\nmachine learning and data science master program"] ∧
    c3Prev.embeddings ≠ none ∧
    (indexData c3Prev [("ai", badProg)]).chunks = [] ∧
    (indexData c3Prev [("ai", badProg)]).embeddings = c3Prev.embeddings ∧
    (rebuildRagIndex { data := [("ai", badProg)], ragEngine := some c3Prev }).2 = true := by
  refine ⟨by decide, ?_, by decide, ?_, by decide⟩
  · intro h
    have : c3Prev.embeddings =
        some (buildVectors
          ["Программа: Искусственный интеллект\nmachine learning and data science master program"]) := by
      rfl
    rw [this] at h
    cases h
  · rfl

/- ---------------------------------------------------------------------------
Generic facts about the ranking pipeline, shared by claims C1 and C4.
--------------------------------------------------------------------------- -/

lemma length_tfidfRaw (docs : List (List String)) (tokens : List String) :
    (tfidfRaw docs tokens).length = (vocabOf docs).length := by
  unfold tfidfRaw
  split <;> simp

lemma length_normalizeIf (v : List ℝ) : (normalizeIf v).length = v.length := by
  unfold normalizeIf
  split <;> simp

lemma length_queryVec (vocab : List String) (idfW : List (String × ℝ))
    (qts : List String) : (queryVec vocab idfW qts).length = vocab.length := by
  unfold queryVec
  split <;> simp

lemma argsortAsc_perm (v : List ℝ) :
    List.Perm (argsortAsc v) (List.range v.length) :=
  List.perm_insertionSort _ _

lemma argsortAsc_nodup (v : List ℝ) : (argsortAsc v).Nodup :=
  (argsortAsc_perm v).nodup_iff.2 (List.nodup_range _)

lemma argsortAsc_mem_lt (v : List ℝ) {i : ℕ} (h : i ∈ argsortAsc v) :
    i < v.length :=
  List.mem_range.1 ((argsortAsc_perm v).mem_iff.1 h)

lemma argsortAsc_sorted (v : List ℝ) :
    (argsortAsc v).Pairwise (keyLtAsc v) :=
  List.sorted_insertionSort _ _

/-- The indices the brute-force path reports are ordered by strictly
descending similarity, with ties ordered by strictly descending index. -/
lemma npTopK_pairwise (v : List ℝ) (k : ℕ) :
    (npTopK v k).Pairwise (fun i j =>
      v.getD j 0 < v.getD i 0 ∨ (v.getD i 0 = v.getD j 0 ∧ j < i)) := by
  have hrev : (argsortAsc v).reverse.Pairwise (fun i j => keyLtAsc v j i) :=
    List.pairwise_reverse.2 (argsortAsc_sorted v)
  have hne : (argsortAsc v).reverse.Pairwise (fun i j => i ≠ j) :=
    List.nodup_reverse.2 (argsortAsc_nodup v)
  have hall : (argsortAsc v).reverse.Pairwise (fun i j =>
      v.getD j 0 < v.getD i 0 ∨ (v.getD i 0 = v.getD j 0 ∧ j < i)) := by
    refine (hrev.and hne).imp ?_
    rintro i j ⟨hk, hij⟩
    rcases hk with h | ⟨h, hle⟩
    · exact Or.inl h
    · exact Or.inr ⟨h.symm, lt_of_le_of_ne hle (Ne.symm hij)⟩
  exact hall.sublist (List.take_sublist _ _)

lemma npTopK_length_le (v : List ℝ) (k : ℕ) : (npTopK v k).length ≤ k :=
  List.length_take_le _ _

lemma npTopK_mem_lt (v : List ℝ) (k : ℕ) {i : ℕ} (h : i ∈ npTopK v k) :
    i < v.length :=
  argsortAsc_mem_lt v (List.mem_reverse.1 (List.mem_of_mem_take h))

/-- The result loop over index/score pairs coming from a similarity list:
dropping those below the threshold and reading off text and metadata. -/
lemma resultLoop_map (cs : List String) (ms : List ChunkMeta) (t : ℝ)
    (sims : List ℝ) (ixs : List ℕ) :
    resultLoop cs ms t (ixs.map (fun i => (Int.ofNat i, sims.getD i 0))) =
      (ixs.filter (fun i => decide (t ≤ sims.getD i 0))).map
        (fun i => (cs.getD i "", sims.getD i 0, ms.getD i default)) := by
  induction ixs with
  | nil => rfl
  | cons a l ih =>
      have hne : (Int.ofNat a) ≠ -1 := by exact (by omega : (a : ℤ) ≠ -1)
      by_cases h : t ≤ sims[a]?.getD 0
      · simp [resultLoop, List.filterMap_cons, List.filter_cons, hne, h] at ih ⊢
        exact ih
      · simp [resultLoop, List.filterMap_cons, List.filter_cons, hne, h] at ih ⊢
        exact ih

lemma any_len_mismatch_false (chunks : List String) (q : String) :
    ((buildVectors chunks).any (fun r =>
      r.length != (normalizeIf (queryVec (vocabOf (chunks.map tokenize))
        (idfPairs (chunks.map tokenize)) (tokenize q))).length)) = false := by
  rw [List.any_eq_false]
  intro r hr
  obtain ⟨d, -, rfl⟩ := List.mem_map.1 hr
  simp [bne_iff_ne, length_normalizeIf, length_tfidfRaw, length_queryVec]

/-- On a freshly built engine without FAISS, search is the brute-force
pipeline over the similarity list. -/
lemma search_buildState_bf (chunks : List String) (md : List ChunkMeta)
    (q : String) (k : ℕ) (t : ℝ) (hc : chunks ≠ []) (hq : tokenize q ≠ []) :
    search (buildState chunks md false) q k t =
      resultLoop chunks md t ((npTopK (simsOf chunks q) k).map
        (fun i => (Int.ofNat i, (simsOf chunks q).getD i 0))) := by
  unfold simsOf
  unfold search buildState
  simp only
  rw [if_neg (by simpa using hc)]
  rw [if_neg (by simpa using hq)]
  simp only [Bool.false_eq_true, if_false]
  rw [any_len_mismatch_false chunks q]
  simp

/-- On a freshly built engine with FAISS available, search is the
accelerated-backend pipeline over the same similarity list. -/
lemma search_buildState_faiss (chunks : List String) (md : List ChunkMeta)
    (q : String) (k : ℕ) (t : ℝ) (hc : chunks ≠ []) (hq : tokenize q ≠ []) :
    search (buildState chunks md true) q k t =
      resultLoop chunks md t (faissSearchRaw (simsOf chunks q) k) := by
  unfold simsOf
  unfold search buildState
  simp only
  rw [if_neg (by simpa using hc)]
  rw [if_neg (by simpa using hq)]
  simp only [if_true]
  rw [any_len_mismatch_false chunks q]
  simp

/- ---------------------------------------------------------------------------
Claim C1.
--------------------------------------------------------------------------- -/

/-- Claim C1 (amended): on the brute-force path, search returns at most k
results, every returned score is at least the threshold, results are sorted
by descending score - and ties are broken by REVERSE chunk insertion order
(the later chunk comes first), not by insertion order.  A result's position
in the corpus is recovered as the index of its metadata record. -/
theorem C1_search_ranking (chunks : List String) (md : List ChunkMeta)
    (q : String) (k : ℕ) (t : ℝ) (hnd : md.Nodup)
    (hlen : md.length = chunks.length) :
    (search (buildState chunks md false) q k t).length ≤ k ∧
    (∀ r ∈ search (buildState chunks md false) q k t, t ≤ r.2.1) ∧
    (search (buildState chunks md false) q k t).Pairwise
      (fun a b => b.2.1 ≤ a.2.1) ∧
    (search (buildState chunks md false) q k t).Pairwise
      (fun a b => a.2.1 = b.2.1 →
        md.indexOf b.2.2 < md.indexOf a.2.2) := by
  by_cases hc : chunks = []
  · have he : search (buildState chunks md false) q k t = [] := by
      unfold search
      rw [if_pos (by simp [buildState, hc])]
    rw [he]
    simp
  by_cases hq : tokenize q = []
  · have he : search (buildState chunks md false) q k t = [] := by
      unfold search buildState
      simp only
      rw [if_neg (by simpa using hc), if_pos (by simpa using hq)]
    rw [he]
    simp
  rw [search_buildState_bf chunks md q k t hc hq, resultLoop_map]
  have hslen : (simsOf chunks q).length = chunks.length := by
    unfold simsOf buildVectors
    simp
  have hsub : ((npTopK (simsOf chunks q) k).filter
      (fun i => decide (t ≤ (simsOf chunks q).getD i 0))).Sublist
      (npTopK (simsOf chunks q) k) := List.filter_sublist _
  have hmem_lt : ∀ i ∈ (npTopK (simsOf chunks q) k).filter
      (fun i => decide (t ≤ (simsOf chunks q).getD i 0)), i < md.length := by
    intro i hi
    rw [hlen, ← hslen]
    exact npTopK_mem_lt _ _ (hsub.mem hi)
  have hpw : ((npTopK (simsOf chunks q) k).filter
      (fun i => decide (t ≤ (simsOf chunks q).getD i 0))).Pairwise
      (fun i j => (simsOf chunks q).getD j 0 < (simsOf chunks q).getD i 0 ∨
        ((simsOf chunks q).getD i 0 = (simsOf chunks q).getD j 0 ∧ j < i)) :=
    (npTopK_pairwise _ _).sublist hsub
  refine ⟨?_, ?_, ?_, ?_⟩
  · rw [List.length_map]
    exact (hsub.length_le).trans (npTopK_length_le _ _)
  · intro r hr
    obtain ⟨i, hi, rfl⟩ := List.mem_map.1 hr
    exact of_decide_eq_true (List.mem_filter.1 hi).2
  · rw [List.pairwise_map]
    refine hpw.imp ?_
    rintro i j (h | ⟨h, -⟩)
    · exact h.le
    · exact h.symm.le
  · rw [List.pairwise_map]
    have hbound : ((npTopK (simsOf chunks q) k).filter
        (fun i => decide (t ≤ (simsOf chunks q).getD i 0))).Pairwise
        (fun i j => i < md.length ∧ j < md.length) := by
      refine List.pairwise_iff_forall_sublist.2 ?_
      intro i j hsl
      have hi : i ∈ _ := hsl.subset (List.mem_cons_self _ _)
      have hj : j ∈ _ := hsl.subset (List.mem_cons_of_mem _ (List.mem_cons_self _ _))
      exact ⟨hmem_lt i hi, hmem_lt j hj⟩
    refine (hpw.and hbound).imp ?_
    rintro i j ⟨hS, hi, hj⟩ heq
    rcases hS with h | ⟨-, hlt⟩
    · exact absurd heq (ne_of_gt h)
    · rw [List.getD_eq_getElem md default hj, List.getD_eq_getElem md default hi,
        List.indexOf_getElem hnd j hj, List.indexOf_getElem hnd i hi]
      exact hlt

/- ---------------------------------------------------------------------------
Claim C4.
--------------------------------------------------------------------------- -/

lemma resultLoop_pad (cs : List String) (ms : List ChunkMeta) (t : ℝ) (m : ℕ) :
    resultLoop cs ms t (List.replicate m (-1, 0)) = [] := by
  induction m with
  | zero => rfl
  | succ n ih =>
      rw [List.replicate_succ]
      unfold resultLoop at ih ⊢
      rw [List.filterMap_cons]
      rw [if_neg (fun hcon => hcon.1 rfl)]
      exact ih

lemma pairwise_bounds {l : List ℕ} {n : ℕ} (h : ∀ i ∈ l, i < n) :
    l.Pairwise (fun i j => i < n ∧ j < n) := by
  refine List.pairwise_iff_forall_sublist.2 ?_
  intro i j hsl
  exact ⟨h i (hsl.subset (List.mem_cons_self _ _)),
         h j (hsl.subset (List.mem_cons_of_mem _ (List.mem_cons_self _ _)))⟩

/-- With pairwise-distinct similarities the spec-modelled accelerated order
coincides with the reversed stable ascending argsort. -/
lemma descOrder_eq_reverse_argsortAsc (v : List ℝ) (h : v.Nodup) :
    List.insertionSort (keyLtDesc v) (List.range v.length) =
      (argsortAsc v).reverse := by
  letI : IsAntisymm ℕ (fun i j : ℕ => v.getD j 0 < v.getD i 0) :=
    ⟨fun _ _ h1 h2 => absurd h2 (lt_asymm h1)⟩
  have hinj : ∀ i j : ℕ, i < v.length → j < v.length →
      v.getD i 0 = v.getD j 0 → i = j := by
    intro i j hi hj he
    rw [List.getD_eq_getElem v 0 hi, List.getD_eq_getElem v 0 hj] at he
    exact (List.Nodup.getElem_inj_iff h).1 he
  have hperm : List.Perm (List.insertionSort (keyLtDesc v) (List.range v.length))
      ((argsortAsc v).reverse) :=
    (List.perm_insertionSort _ _).trans
      (((argsortAsc v).reverse_perm.trans (argsortAsc_perm v)).symm)
  have hs1 : (List.insertionSort (keyLtDesc v) (List.range v.length)).Pairwise
      (fun i j : ℕ => v.getD j 0 < v.getD i 0) := by
    have hsort : (List.insertionSort (keyLtDesc v) (List.range v.length)).Pairwise
        (keyLtDesc v) := List.sorted_insertionSort _ _
    have hnd : (List.insertionSort (keyLtDesc v) (List.range v.length)).Nodup :=
      (List.perm_insertionSort _ _).nodup_iff.2 (List.nodup_range _)
    have hbnd := pairwise_bounds (n := v.length) (l :=
        List.insertionSort (keyLtDesc v) (List.range v.length))
      (fun i hi => List.mem_range.1 ((List.perm_insertionSort _ _).subset hi))
    refine ((hsort.and hnd).and hbnd).imp ?_
    rintro i j ⟨⟨hk, hij⟩, hi, hj⟩
    rcases hk with hlt | ⟨he, -⟩
    · exact hlt
    · exact absurd (hinj i j hi hj he) hij
  have hs2 : ((argsortAsc v).reverse).Pairwise
      (fun i j : ℕ => v.getD j 0 < v.getD i 0) := by
    have hsort : ((argsortAsc v).reverse).Pairwise (fun i j => keyLtAsc v j i) :=
      List.pairwise_reverse.2 (argsortAsc_sorted v)
    have hnd : ((argsortAsc v).reverse).Nodup :=
      List.nodup_reverse.2 (argsortAsc_nodup v)
    have hbnd := pairwise_bounds (n := v.length) (l := (argsortAsc v).reverse)
      (fun i hi => argsortAsc_mem_lt v (List.mem_reverse.1 hi))
    refine ((hsort.and hnd).and hbnd).imp ?_
    rintro i j ⟨⟨hk, hij⟩, hi, hj⟩
    rcases hk with hlt | ⟨he, -⟩
    · exact hlt
    · exact absurd (hinj j i hj hi he) (Ne.symm hij)
  exact List.eq_of_perm_of_sorted hperm hs1 hs2

/-- Claim C4 (amended): whenever the similarity scores are pairwise distinct,
the accelerated (FAISS) path and the brute-force path return the same ordered
result sequence with identical texts, scores and metadata; on ties the two
paths may order the tied chunks differently (see the counterexample). -/
theorem C4_backend_equivalence (chunks : List String) (md : List ChunkMeta)
    (q : String) (k : ℕ) (t : ℝ) (h : (simsOf chunks q).Nodup) :
    search (buildState chunks md true) q k t =
      search (buildState chunks md false) q k t := by
  by_cases hc : chunks = []
  · have h1 : search (buildState chunks md true) q k t = [] := by
      unfold search
      rw [if_pos (by simp [buildState, hc])]
    have h2 : search (buildState chunks md false) q k t = [] := by
      unfold search
      rw [if_pos (by simp [buildState, hc])]
    rw [h1, h2]
  by_cases hq : tokenize q = []
  · have h1 : search (buildState chunks md true) q k t = [] := by
      unfold search buildState
      simp only
      rw [if_neg (by simpa using hc), if_pos (by simpa using hq)]
    have h2 : search (buildState chunks md false) q k t = [] := by
      unfold search buildState
      simp only
      rw [if_neg (by simpa using hc), if_pos (by simpa using hq)]
    rw [h1, h2]
  rw [search_buildState_faiss chunks md q k t hc hq,
    search_buildState_bf chunks md q k t hc hq]
  unfold faissSearchRaw npTopK
  rw [descOrder_eq_reverse_argsortAsc _ h]
  unfold resultLoop
  rw [List.filterMap_append]
  have hpad := resultLoop_pad chunks md t
    (k - min k (simsOf chunks q).length)
  unfold resultLoop at hpad
  rw [hpad, List.append_nil]

/- ---------------------------------------------------------------------------
Concrete evaluations for the C1 and C4 counterexamples and witnesses.
The corpus ["alpha", "Alpha", "gamma"] produces two chunks with identical
token lists (hence identical vectors and tied scores) and one unrelated
chunk; the query "alpha" scores the first two at exactly 1.
--------------------------------------------------------------------------- -/

lemma normalizeIf_pair_left {c : ℝ} (hc : 0 < c) : normalizeIf [c, 0] = [1, 0] := by
  have hl2 : l2norm [c, 0] = c := by
    unfold l2norm
    simp only [List.map_cons, List.map_nil, List.sum_cons, List.sum_nil]
    rw [show (c^2 + ((0:ℝ)^2 + 0)) = c^2 from by ring]
    exact Real.sqrt_sq hc.le
  unfold normalizeIf
  rw [hl2, if_pos hc]
  simp [div_self (ne_of_gt hc)]

lemma normalizeIf_pair_right {c : ℝ} (hc : 0 < c) : normalizeIf [0, c] = [0, 1] := by
  have hl2 : l2norm [0, c] = c := by
    unfold l2norm
    simp only [List.map_cons, List.map_nil, List.sum_cons, List.sum_nil]
    rw [show ((0:ℝ)^2 + (c^2 + 0)) = c^2 from by ring]
    exact Real.sqrt_sq hc.le
  unfold normalizeIf
  rw [hl2, if_pos hc]
  simp [div_self (ne_of_gt hc)]

def cexChunks : List String := ["alpha", "Alpha", "gamma"]

def cexMd : List ChunkMeta :=
  [{ programName := "p", programId := "p", sectionName := "s0",
     question := none, kindTag := "t" },
   { programName := "p", programId := "p", sectionName := "s1",
     question := none, kindTag := "t" },
   { programName := "p", programId := "p", sectionName := "s2",
     question := none, kindTag := "t" }]

lemma cex_docs : cexChunks.map tokenize = [["alpha"], ["alpha"], ["gamma"]] := by decide

lemma cex_vocab : vocabOf [["alpha"], ["alpha"], ["gamma"]] = ["alpha", "gamma"] := by decide

lemma cex_idf_alpha : idfFun [["alpha"], ["alpha"], ["gamma"]] "alpha" =
    Real.log ((3:ℝ)/2) := by
  unfold idfFun
  rw [show dfOr1 [["alpha"], ["alpha"], ["gamma"]] "alpha" = 2 from by decide]
  norm_num

lemma cex_idf_gamma : idfFun [["alpha"], ["alpha"], ["gamma"]] "gamma" =
    Real.log 3 := by
  unfold idfFun
  rw [show dfOr1 [["alpha"], ["alpha"], ["gamma"]] "gamma" = 1 from by decide]
  norm_num

lemma cex_raw_alpha : tfidfRaw [["alpha"], ["alpha"], ["gamma"]] ["alpha"] =
    [Real.log ((3:ℝ)/2), 0] := by
  unfold tfidfRaw
  rw [if_neg (by decide), cex_vocab]
  simp only [List.map_cons, List.map_nil]
  rw [cex_idf_alpha, cex_idf_gamma]
  rw [show ((["alpha"] : List String).count "alpha") = 1 from by decide]
  rw [show ((["alpha"] : List String).count "gamma") = 0 from by decide]
  norm_num

lemma cex_raw_gamma : tfidfRaw [["alpha"], ["alpha"], ["gamma"]] ["gamma"] =
    [0, Real.log 3] := by
  unfold tfidfRaw
  rw [if_neg (by decide), cex_vocab]
  simp only [List.map_cons, List.map_nil]
  rw [cex_idf_alpha, cex_idf_gamma]
  rw [show ((["gamma"] : List String).count "alpha") = 0 from by decide]
  rw [show ((["gamma"] : List String).count "gamma") = 1 from by decide]
  norm_num

lemma cex_buildVectors : buildVectors cexChunks = [[1, 0], [1, 0], [0, 1]] := by
  unfold buildVectors
  rw [cex_docs]
  simp only [List.map_cons, List.map_nil]
  rw [cex_raw_alpha, cex_raw_gamma,
    normalizeIf_pair_left (Real.log_pos (by norm_num)),
    normalizeIf_pair_right (Real.log_pos (by norm_num))]

lemma cex_qv : normalizeIf (queryVec (vocabOf (cexChunks.map tokenize))
    (idfPairs (cexChunks.map tokenize)) (tokenize "alpha")) = [1, 0] := by
  rw [cex_docs, show tokenize "alpha" = ["alpha"] from by decide]
  have hpairs : idfPairs [["alpha"], ["alpha"], ["gamma"]] =
      [("alpha", idfFun [["alpha"], ["alpha"], ["gamma"]] "alpha"),
       ("gamma", idfFun [["alpha"], ["alpha"], ["gamma"]] "gamma")] := by
    unfold idfPairs
    rw [cex_vocab]
    rfl
  have hq : queryVec (vocabOf [["alpha"], ["alpha"], ["gamma"]])
      (idfPairs [["alpha"], ["alpha"], ["gamma"]]) ["alpha"] =
      [Real.log ((3:ℝ)/2), 0] := by
    unfold queryVec
    rw [if_neg (by decide), cex_vocab, hpairs]
    simp only [List.map_cons, List.map_nil, List.lookup]
    rw [show (("alpha" == "alpha") : Bool) = true from by decide]
    rw [show (("gamma" == "alpha") : Bool) = false from by decide]
    simp only [Option.getD_some]
    rw [cex_idf_alpha, cex_idf_gamma]
    rw [show ((["alpha"] : List String).count "alpha") = 1 from by decide]
    rw [show ((["alpha"] : List String).count "gamma") = 0 from by decide]
    norm_num
  rw [hq, normalizeIf_pair_left (Real.log_pos (by norm_num))]

lemma cex_sims : simsOf cexChunks "alpha" = [1, 1, 0] := by
  unfold simsOf
  rw [cex_qv, cex_buildVectors]
  simp only [List.map_cons, List.map_nil]
  unfold dot
  norm_num [List.zip]

lemma cex_argsort : argsortAsc [(1:ℝ), 1, 0] = [2, 0, 1] := by
  have k12 : ¬ keyLtAsc [(1:ℝ), 1, 0] 1 2 := by
    unfold keyLtAsc
    norm_num
  have k02 : ¬ keyLtAsc [(1:ℝ), 1, 0] 0 2 := by
    unfold keyLtAsc
    norm_num
  have k01 : keyLtAsc [(1:ℝ), 1, 0] 0 1 := by
    unfold keyLtAsc
    norm_num
  unfold argsortAsc
  rw [show ([(1:ℝ), 1, 0].length) = 3 from by norm_num,
    show List.range 3 = [0, 1, 2] from by decide]
  simp only [List.insertionSort, List.orderedInsert]
  rw [if_neg k12]
  rw [List.orderedInsert, if_neg k02, List.orderedInsert, if_pos k01]

lemma cex_npTopK : npTopK [(1:ℝ), 1, 0] 5 = [1, 0, 2] := by
  unfold npTopK
  rw [cex_argsort]
  rfl

/-- The tie corpus under the brute-force path: the later duplicate chunk
"Alpha" is returned before the earlier "alpha". -/
lemma cex_search_bf : search (buildState cexChunks cexMd false) "alpha" 5 ((1:ℝ)/10) =
    [("Alpha", 1, cexMd.getD 1 default), ("alpha", 1, cexMd.getD 0 default)] := by
  rw [search_buildState_bf cexChunks cexMd "alpha" 5 ((1:ℝ)/10) (by decide) (by decide),
    resultLoop_map, cex_sims, cex_npTopK]
  have hfil : ([1, 0, 2] : List ℕ).filter
      (fun i => decide ((1:ℝ)/10 ≤ [(1:ℝ), 1, 0].getD i 0)) = [1, 0] := by
    simp only [List.filter_cons, List.filter_nil]
    norm_num
  rw [hfil]
  simp only [List.map_cons, List.map_nil]
  norm_num
  constructor <;> rfl

lemma cex_descSort : List.insertionSort (keyLtDesc [(1:ℝ), 1, 0])
    (List.range ([(1:ℝ), 1, 0].length)) = [0, 1, 2] := by
  have kd12 : keyLtDesc [(1:ℝ), 1, 0] 1 2 := by
    unfold keyLtDesc
    norm_num
  have kd01 : keyLtDesc [(1:ℝ), 1, 0] 0 1 := by
    unfold keyLtDesc
    norm_num
  rw [show ([(1:ℝ), 1, 0].length) = 3 from by norm_num,
    show List.range 3 = [0, 1, 2] from by decide]
  simp only [List.insertionSort, List.orderedInsert]
  rw [if_pos kd12]
  rw [List.orderedInsert, if_pos kd01]

lemma cex_faissRaw : faissSearchRaw [(1:ℝ), 1, 0] 5 =
    [(0, 1), (1, 1), (2, 0), (-1, 0), (-1, 0)] := by
  unfold faissSearchRaw
  rw [cex_descSort]
  rw [show (5 - min 5 ([(1:ℝ), 1, 0].length)) = 2 from by norm_num]
  simp only [List.take, List.map_cons, List.map_nil, List.replicate]
  norm_num

/-- The tie corpus under the spec-modelled accelerated path: insertion
order is kept on the tie. -/
lemma cex_search_faiss : search (buildState cexChunks cexMd true) "alpha" 5 ((1:ℝ)/10) =
    [("alpha", 1, cexMd.getD 0 default), ("Alpha", 1, cexMd.getD 1 default)] := by
  rw [search_buildState_faiss cexChunks cexMd "alpha" 5 ((1:ℝ)/10) (by decide) (by decide),
    cex_sims, cex_faissRaw]
  unfold resultLoop
  simp only [List.filterMap_cons, List.filterMap_nil]
  rw [if_pos (⟨by decide, by norm_num⟩ : ((0:ℤ) ≠ -1 ∧ (1:ℝ)/10 ≤ 1))]
  rw [if_pos (⟨by decide, by norm_num⟩ : ((1:ℤ) ≠ -1 ∧ (1:ℝ)/10 ≤ 1))]
  rw [if_neg (fun hcon => by norm_num at hcon : ¬ ((2:ℤ) ≠ -1 ∧ (1:ℝ)/10 ≤ 0))]
  rw [if_neg (fun hcon => hcon.1 rfl : ¬ ((-1:ℤ) ≠ -1 ∧ (1:ℝ)/10 ≤ 0))]
  rfl

/-- Counterexample to C1 as stated: chunks 0 and 1 ("alpha" and "Alpha")
tie with score exactly 1, and the brute-force path returns the later chunk
first, violating tie-breaking by insertion order. -/
theorem C1_counterexample :
    search (buildState cexChunks cexMd false) "alpha" 5 ((1:ℝ)/10) =
      [("Alpha", 1, cexMd.getD 1 default), ("alpha", 1, cexMd.getD 0 default)] ∧
    ¬ (search (buildState cexChunks cexMd false) "alpha" 5 ((1:ℝ)/10)).Pairwise
      (fun a b => a.2.1 = b.2.1 → cexMd.indexOf a.2.2 ≤ cexMd.indexOf b.2.2) := by
  refine ⟨cex_search_bf, ?_⟩
  rw [cex_search_bf]
  intro hP
  have h2 := (List.pairwise_cons.1 hP).1 _ (List.mem_cons_self _ _) rfl
  exact absurd h2 (by decide)

/-- Witness for C1 at the concrete tie corpus. -/
theorem C1_search_ranking_witness :
    cexMd.Nodup ∧ cexMd.length = cexChunks.length ∧
    (search (buildState cexChunks cexMd false) "alpha" 5 ((1:ℝ)/10)).length ≤ 5 :=
  ⟨by decide, by decide,
   (C1_search_ranking cexChunks cexMd "alpha" 5 ((1:ℝ)/10) (by decide) (by decide)).1⟩

/-- Counterexample to C4 as stated: on the tie corpus the two backends
return the same two results in different orders. -/
theorem C4_counterexample :
    search (buildState cexChunks cexMd true) "alpha" 5 ((1:ℝ)/10) ≠
      search (buildState cexChunks cexMd false) "alpha" 5 ((1:ℝ)/10) := by
  rw [cex_search_bf, cex_search_faiss]
  intro hcon
  have h2 := congrArg (List.map Prod.fst) hcon
  exact absurd h2 (by decide)

/- A tie-free two-chunk corpus for the C4 witness. -/

def c4wChunks : List String := ["alpha", "gamma"]

lemma c4w_docs : c4wChunks.map tokenize = [["alpha"], ["gamma"]] := by decide

lemma c4w_vocab : vocabOf [["alpha"], ["gamma"]] = ["alpha", "gamma"] := by decide

lemma c4w_idf_alpha : idfFun [["alpha"], ["gamma"]] "alpha" = Real.log 2 := by
  unfold idfFun
  rw [show dfOr1 [["alpha"], ["gamma"]] "alpha" = 1 from by decide]
  norm_num

lemma c4w_idf_gamma : idfFun [["alpha"], ["gamma"]] "gamma" = Real.log 2 := by
  unfold idfFun
  rw [show dfOr1 [["alpha"], ["gamma"]] "gamma" = 1 from by decide]
  norm_num

lemma c4w_raw_alpha : tfidfRaw [["alpha"], ["gamma"]] ["alpha"] = [Real.log 2, 0] := by
  unfold tfidfRaw
  rw [if_neg (by decide), c4w_vocab]
  simp only [List.map_cons, List.map_nil]
  rw [c4w_idf_alpha, c4w_idf_gamma]
  rw [show ((["alpha"] : List String).count "alpha") = 1 from by decide]
  rw [show ((["alpha"] : List String).count "gamma") = 0 from by decide]
  norm_num

lemma c4w_raw_gamma : tfidfRaw [["alpha"], ["gamma"]] ["gamma"] = [0, Real.log 2] := by
  unfold tfidfRaw
  rw [if_neg (by decide), c4w_vocab]
  simp only [List.map_cons, List.map_nil]
  rw [c4w_idf_alpha, c4w_idf_gamma]
  rw [show ((["gamma"] : List String).count "alpha") = 0 from by decide]
  rw [show ((["gamma"] : List String).count "gamma") = 1 from by decide]
  norm_num

lemma c4w_buildVectors : buildVectors c4wChunks = [[1, 0], [0, 1]] := by
  unfold buildVectors
  rw [c4w_docs]
  simp only [List.map_cons, List.map_nil]
  rw [c4w_raw_alpha, c4w_raw_gamma,
    normalizeIf_pair_left (Real.log_pos (by norm_num)),
    normalizeIf_pair_right (Real.log_pos (by norm_num))]

lemma c4w_qv : normalizeIf (queryVec (vocabOf (c4wChunks.map tokenize))
    (idfPairs (c4wChunks.map tokenize)) (tokenize "alpha")) = [1, 0] := by
  rw [c4w_docs, show tokenize "alpha" = ["alpha"] from by decide]
  have hpairs : idfPairs [["alpha"], ["gamma"]] =
      [("alpha", idfFun [["alpha"], ["gamma"]] "alpha"),
       ("gamma", idfFun [["alpha"], ["gamma"]] "gamma")] := by
    unfold idfPairs
    rw [c4w_vocab]
    rfl
  have hq : queryVec (vocabOf [["alpha"], ["gamma"]])
      (idfPairs [["alpha"], ["gamma"]]) ["alpha"] = [Real.log 2, 0] := by
    unfold queryVec
    rw [if_neg (by decide), c4w_vocab, hpairs]
    simp only [List.map_cons, List.map_nil, List.lookup]
    rw [show (("alpha" == "alpha") : Bool) = true from by decide]
    rw [show (("gamma" == "alpha") : Bool) = false from by decide]
    simp only [Option.getD_some]
    rw [c4w_idf_alpha, c4w_idf_gamma]
    rw [show ((["alpha"] : List String).count "alpha") = 1 from by decide]
    rw [show ((["alpha"] : List String).count "gamma") = 0 from by decide]
    norm_num
  rw [hq, normalizeIf_pair_left (Real.log_pos (by norm_num))]

lemma c4w_sims : simsOf c4wChunks "alpha" = [1, 0] := by
  unfold simsOf
  rw [c4w_qv, c4w_buildVectors]
  simp only [List.map_cons, List.map_nil]
  unfold dot
  norm_num [List.zip]

/-- Witness for C4 at a corpus whose similarity scores are distinct. -/
theorem C4_backend_equivalence_witness :
    (simsOf c4wChunks "alpha").Nodup ∧
    search (buildState c4wChunks cexMd true) "alpha" 5 ((1:ℝ)/10) =
      search (buildState c4wChunks cexMd false) "alpha" 5 ((1:ℝ)/10) :=
  ⟨by rw [c4w_sims]; simp,
   C4_backend_equivalence c4wChunks cexMd "alpha" 5 ((1:ℝ)/10)
     (by rw [c4w_sims]; simp)⟩
